import Mathlib

/-!
Shallow embedding of the ai-arkonoid simulation core: the per-frame physics
and collision engine of the Game component (src/unnamed/part_000) together
with the AI targeting helpers, over exact real arithmetic (JavaScript doubles
are idealised as real numbers; division by zero follows Lean's convention
`x / 0 = 0`, noted where it matters).

Brick pixel positions are derived from grid indices exactly as `drawBricks`
computes them (`c * (BRICK_WIDTH + BRICK_PADDING) + BRICK_OFFSET_LEFT`, and
analogously for rows); in the source, `drawBricks` stamps these positions onto
every brick with `status === 1` on each frame before `collisionDetection`
runs, so any brick that is ever tested for collision carries exactly these
coordinates, and a brick still has `x === 0 && y === 0` precisely when it was
never alive (not in the chosen layout).  The source's skip test
`b.status === 0 && b.x === 0 && b.y === 0` is therefore embedded as
`status = false ∧ inLayout = false`.
-/

namespace Arkonoid

/-! ### Constants (src/constants.ts) -/

noncomputable def CANVAS_WIDTH : ℝ := 400
noncomputable def CANVAS_HEIGHT : ℝ := 300
noncomputable def PADDLE_WIDTH : ℝ := 60
noncomputable def PADDLE_HEIGHT : ℝ := 8
noncomputable def PADDLE_Y_OFFSET : ℝ := 15
noncomputable def BALL_RADIUS : ℝ := 5
noncomputable def BALL_SPEED_X : ℝ := 6
noncomputable def BALL_SPEED_Y : ℝ := -6
noncomputable def MIN_BALL_SPEED : ℝ := 4
noncomputable def MAX_BALL_SPEED : ℝ := 10
noncomputable def PADDLE_SPIN_FACTOR : ℝ := 4
noncomputable def PADDLE_VELOCITY_SPIN_FACTOR : ℝ := 0.3
noncomputable def PADDLE_EDGE_BOOST : ℝ := 2.5
noncomputable def PADDLE_FLICK_SPEED_BONUS : ℝ := 1.1
noncomputable def BALL_FRICTION : ℝ := 0.9995
noncomputable def BRICK_WIDTH : ℝ := 36
noncomputable def BRICK_HEIGHT : ℝ := 10
noncomputable def BRICK_PADDING : ℝ := 5
noncomputable def BRICK_OFFSET_TOP : ℝ := 20
noncomputable def BRICK_OFFSET_LEFT : ℝ := 18

def POINTS_PER_BRICK : ℕ := 10

/-- `GOLDEN_BRICK_ROULETTE_CHANCES.JACKPOT` -/
noncomputable def GOLDEN_JACKPOT_CHANCE : ℝ := 0.25

/-- `GOLDEN_BRICK_ROULETTE_CHANCES.POWER_BALL` -/
noncomputable def GOLDEN_POWER_BALL_CHANCE : ℝ := 0.35

def POWER_BALL_DURATION : ℕ := 240

noncomputable def AI_POWER_SHOT_MULTIPLIER : ℝ := 7
def AI_STUCK_FRAMES_THRESHOLD : ℕ := 180
def AI_RECOVERY_FRAMES : ℕ := 90
def AI_LOOP_DETECTION_HISTORY_LENGTH : ℕ := 60

/-- `BALL_RADIUS * 6` -/
noncomputable def AI_LOOP_DETECTION_BOX_SIZE : ℝ := 30

def AI_SIMULATION_DEPTH : ℕ := 4
noncomputable def AI_SIMULATION_ANGLES : List ℝ := [-0.9, -0.6, -0.3, 0, 0.3, 0.6, 0.9]

/-! ### Data model -/

/-- A brick cell.  `inLayout` records whether the chosen level layout placed a
brick in this cell at match start (the source's `status` is initialised from
the layout, and a cell's pixel position stays `(0,0)` iff it was never
alive). -/
structure Brick where
  inLayout : Bool
  status : Bool
  isGolden : Bool
deriving DecidableEq, Repr

/-- The 9 x 5 brick grid, indexed column-major as `bricksRef.current[c][r]`. -/
abbrev Grid := Fin 9 → Fin 5 → Brick

/-- Pixel x of the left edge of column `c`: `c * (BRICK_WIDTH + BRICK_PADDING)
+ BRICK_OFFSET_LEFT` (from `drawBricks`). -/
noncomputable def brickXpos (c : Fin 9) : ℝ :=
  (c : ℝ) * (BRICK_WIDTH + BRICK_PADDING) + BRICK_OFFSET_LEFT

/-- Pixel y of the top edge of row `r`: `r * (BRICK_HEIGHT + BRICK_PADDING)
+ BRICK_OFFSET_TOP` (from `drawBricks`). -/
noncomputable def brickYpos (r : Fin 5) : ℝ :=
  (r : ℝ) * (BRICK_HEIGHT + BRICK_PADDING) + BRICK_OFFSET_TOP

/-- The per-match mutable state of one Game instance: the refs of the source
component that the physics/AI core reads and writes. -/
structure GameState where
  ballX : ℝ
  ballY : ℝ
  dx : ℝ
  dy : ℝ
  isPowerBall : Bool
  powerBallTimer : ℕ
  paddleX : ℝ
  paddleVelocity : ℝ
  bricks : Grid
  score : ℕ
  lives : ℤ
  productiveHits : ℕ
  nonProductiveHits : ℕ
  dynamicAggressionFactor : ℝ
  lastBrickBreakFrame : ℕ
  frameCounter : ℕ
  isPowerShotMode : Bool
  isStuck : Bool
  isWinning : Bool
  isLosing : Bool
  jackpotsThisGame : ℕ

/-- `y` coordinate of the paddle's top plane:
`CANVAS_HEIGHT - PADDLE_Y_OFFSET - PADDLE_HEIGHT`. -/
noncomputable def paddleTopY : ℝ := CANVAS_HEIGHT - PADDLE_Y_OFFSET - PADDLE_HEIGHT

/-- Initial paddle x, `(CANVAS_WIDTH - PADDLE_WIDTH) / 2`. -/
noncomputable def initialPaddleX : ℝ := (CANVAS_WIDTH - PADDLE_WIDTH) / 2

/-- Initial confidence, `dynamicAggressionFactorRef.current = 1.0`. -/
noncomputable def initialAggression : ℝ := 1.0

/-! ### GoldenBrickResolver (`handleGoldenBrick`) -/

inductive GoldenOutcome where
  | JACKPOT
  | POWER_BALL
  | DUD
deriving DecidableEq, Repr

/-- The roulette classification of `handleGoldenBrick`: cumulative thresholds
`rand < 0.25` for JACKPOT, then `rand < 0.25 + 0.35` for POWER_BALL, else
DUD. -/
noncomputable def rouletteOutcome (rand : ℝ) : GoldenOutcome :=
  if rand < GOLDEN_JACKPOT_CHANCE then .JACKPOT
  else if rand < GOLDEN_JACKPOT_CHANCE + GOLDEN_POWER_BALL_CHANCE then .POWER_BALL
  else .DUD

/-- One step of the JACKPOT row-clear loop
(`for (let c = 0; ...) { const b = bricks[c][row]; if (b.status === 1) ... }`). -/
def clearRowCell (r : Fin 5) (s : GameState) (c : Fin 9) : GameState :=
  let b := s.bricks c r
  if b.status then
    { s with
      bricks := fun c' r' => if c' = c ∧ r' = r then { b with status := false } else s.bricks c' r'
      score := s.score + POINTS_PER_BRICK
      productiveHits := s.productiveHits + 1 }
  else s

/-- `handleGoldenBrick(brick)`: runs the roulette on a fresh uniform draw
`rand` and applies the outcome.  `brickY` is the triggering brick's pixel y
(the only field of the brick the function reads).  The JACKPOT branch derives
the row index by `Math.round((brick.y - BRICK_OFFSET_TOP) / (BRICK_HEIGHT +
BRICK_PADDING))` and clears that row; for a row index outside `0..4` the
source would fault on an undefined array entry, which the embedding renders
as leaving the state unchanged (unreachable from real brick positions). -/
noncomputable def handleGoldenBrick (brickY : ℝ) (rand : ℝ) (s : GameState) : GameState :=
  match rouletteOutcome rand with
  | .JACKPOT =>
    let s1 := { s with jackpotsThisGame := s.jackpotsThisGame + 1 }
    let row : ℤ := round ((brickY - BRICK_OFFSET_TOP) / (BRICK_HEIGHT + BRICK_PADDING))
    if h : 0 ≤ row ∧ row < 5 then
      (List.finRange 9).foldl (clearRowCell ⟨row.toNat, by omega⟩) s1
    else s1
  | .POWER_BALL =>
    let speed := Real.sqrt (s.dx ^ 2 + s.dy ^ 2)
    let scale := (speed + 2) / speed
    { s with
      isPowerBall := true
      powerBallTimer := POWER_BALL_DURATION
      dx := s.dx * scale
      dy := s.dy * scale }
  | .DUD =>
    let speed := Real.sqrt (s.dx ^ 2 + s.dy ^ 2)
    let scale := MAX_BALL_SPEED / speed
    { s with dx := s.dx * scale, dy := s.dy * scale }

/-! ### PhysicsEngine: `collisionDetection`

The source's `collisionDetection` runs, in order: the brick scan (with its
layout/broken counters and the one-hit flag), the win check (with an early
return), the side/top wall bounces, the paddle bounce, and the floor check.
Each phase is embedded as its own function and `collisionDetection` is their
composition, following the numbered structure of the source. -/

/-- Accumulator of the brick scan loop: the evolving game state plus the loop
locals `totalLayoutBricks`, `brokenBricks`, `collisionDetectedThisFrame`, and
the list of cells whose collision with the ball was registered this frame. -/
structure ScanAcc where
  s : GameState
  total : ℕ
  broken : ℕ
  flag : Bool
  hits : List (Fin 9 × Fin 5)

/-- The body of the double `for` loop of `collisionDetection` for one cell. -/
noncomputable def cellStep (skill rand : ℝ) (acc : ScanAcc) (cr : Fin 9 × Fin 5) : ScanAcc :=
  let s := acc.s
  let b := s.bricks cr.1 cr.2
  if b.status = false ∧ b.inLayout = false then acc
  else if b.status = false then
    { acc with total := acc.total + 1, broken := acc.broken + 1 }
  else
    let acc1 := { acc with total := acc.total + 1 }
    let bx := brickXpos cr.1
    let byy := brickYpos cr.2
    let closestX := max bx (min s.ballX (bx + BRICK_WIDTH))
    let closestY := max byy (min s.ballY (byy + BRICK_HEIGHT))
    let distanceSquared := (s.ballX - closestX) ^ 2 + (s.ballY - closestY) ^ 2
    if distanceSquared < BALL_RADIUS * BALL_RADIUS ∧ acc1.flag = false then
      let flag1 := if s.isPowerBall then acc1.flag else true
      let s1 := { s with
        bricks := fun c' r' =>
          if c' = cr.1 ∧ r' = cr.2 then { b with status := false } else s.bricks c' r'
        score := s.score + POINTS_PER_BRICK
        productiveHits := s.productiveHits + 1
        dynamicAggressionFactor := min 1.5 (s.dynamicAggressionFactor + 0.05 * skill)
        lastBrickBreakFrame := s.frameCounter }
      let s2 := if b.isGolden then handleGoldenBrick byy rand s1 else s1
      let s3 :=
        if s2.isPowerBall = false then
          let prevY := s2.ballY - s2.dy
          if prevY + BALL_RADIUS ≤ byy ∨ prevY - BALL_RADIUS ≥ byy + BRICK_HEIGHT then
            { s2 with dy := -s2.dy }
          else { s2 with dx := -s2.dx }
        else s2
      { s := s3, total := acc1.total, broken := acc1.broken, flag := flag1,
        hits := acc1.hits ++ [cr] }
    else acc1

/-- Scan order of the double loop: `c` outer from 0 to 8, `r` inner from 0
to 4. -/
def scanOrder : List (Fin 9 × Fin 5) :=
  (List.finRange 9).flatMap fun c => (List.finRange 5).map fun r => (c, r)

/-- The whole brick-scan phase of `collisionDetection`. -/
noncomputable def brickScan (skill rand : ℝ) (s : GameState) : ScanAcc :=
  scanOrder.foldl (cellStep skill rand) ⟨s, 0, 0, false, []⟩

/-- Side/top wall phase: right wall `else if` left wall, then (independently)
the top wall; each clamps the position, inverts a velocity component,
increments the non-productive-hit counter and lowers confidence with floor
0.5. -/
noncomputable def wallPhase (skill : ℝ) (s : GameState) : GameState :=
  let s1 :=
    if s.ballX + BALL_RADIUS > CANVAS_WIDTH then
      { s with ballX := CANVAS_WIDTH - BALL_RADIUS, dx := -s.dx
               nonProductiveHits := s.nonProductiveHits + 1
               dynamicAggressionFactor := max 0.5 (s.dynamicAggressionFactor - 0.02 * skill) }
    else if s.ballX - BALL_RADIUS < 0 then
      { s with ballX := BALL_RADIUS, dx := -s.dx
               nonProductiveHits := s.nonProductiveHits + 1
               dynamicAggressionFactor := max 0.5 (s.dynamicAggressionFactor - 0.02 * skill) }
    else s
  if s1.ballY - BALL_RADIUS < 0 then
    { s1 with ballY := BALL_RADIUS, dy := -s1.dy
              nonProductiveHits := s1.nonProductiveHits + 1
              dynamicAggressionFactor := max 0.5 (s1.dynamicAggressionFactor - 0.02 * skill) }
  else s1

/-- The paddle-bounce guard of `collisionDetection`: moving downward, newly
crossing the paddle's top plane, horizontally within the paddle. -/
def paddleHitCond (s : GameState) : Prop :=
  0 < s.dy ∧ s.ballY + BALL_RADIUS ≥ paddleTopY ∧ s.ballY - s.dy < paddleTopY ∧
    s.paddleX < s.ballX ∧ s.ballX < s.paddleX + PADDLE_WIDTH

open Classical in
/-- Paddle phase: reflect `dy`, derive spin from the normalized contact
offset (power-shot multiplier if armed), apply the edge boost and flick speed
bonus past offset 0.85, set `dx` to the spin plus the paddle-velocity term,
clear the power-shot flag, and force a minimum `|dx|` of 0.5.  Also clears the
stuck flag on contact. -/
noncomputable def paddlePhase (s : GameState) : GameState :=
  if paddleHitCond s then
    let s0 := { s with isStuck := false, ballY := paddleTopY - BALL_RADIUS, dy := -s.dy }
    let collidePoint := (s.ballX - (s.paddleX + PADDLE_WIDTH / 2)) / (PADDLE_WIDTH / 2)
    let spinFromVelocity := s.paddleVelocity * PADDLE_VELOCITY_SPIN_FACTOR
    let spin0 := collidePoint *
      (if s.isPowerShotMode then AI_POWER_SHOT_MULTIPLIER else PADDLE_SPIN_FACTOR)
    let s1 :=
      if |collidePoint| > 0.85 then
        { s0 with dx := spin0 * PADDLE_EDGE_BOOST + spinFromVelocity
                  dy := s0.dy * PADDLE_FLICK_SPEED_BONUS
                  isPowerShotMode := false }
      else { s0 with dx := spin0 + spinFromVelocity, isPowerShotMode := false }
    if |s1.dx| < 0.2 then
      { s1 with dx := (if s1.dx = 0 then 1 else if 0 < s1.dx then 1 else -1) * 0.5 }
    else s1
  else s

/-- `resetBallAndPaddle`: ball re-centred above the paddle with a random
horizontal sign (`sign`), paddle re-centred, power-ball state cleared. -/
noncomputable def resetBallAndPaddle (sign : Bool) (s : GameState) : GameState :=
  { s with
    ballX := CANVAS_WIDTH / 2
    ballY := CANVAS_HEIGHT - PADDLE_Y_OFFSET - PADDLE_HEIGHT - BALL_RADIUS
    dx := BALL_SPEED_X * (if sign then 1 else -1)
    dy := BALL_SPEED_Y
    isPowerBall := false
    powerBallTimer := 0
    paddleX := (CANVAS_WIDTH - PADDLE_WIDTH) / 2 }

/-- Floor phase: when the ball is fully past the bottom edge, decrement
lives; at zero set the losing flag, otherwise reset ball and paddle. -/
noncomputable def floorPhase (sign : Bool) (s : GameState) : GameState :=
  if s.ballY - BALL_RADIUS > CANVAS_HEIGHT then
    let s1 := { s with lives := s.lives - 1 }
    if s1.lives = 0 then { s1 with isLosing := true }
    else resetBallAndPaddle sign s1
  else s

/-- `collisionDetection`: brick scan, then the win check (which returns
early), then walls, paddle and floor.  `skill` is `initialSkillLevel`,
`rand` the roulette draw consumed on a golden-brick hit, `sign` the random
sign drawn on a ball reset. -/
noncomputable def collisionDetection (skill rand : ℝ) (sign : Bool) (s : GameState) : GameState :=
  let scanned := brickScan skill rand s
  if 0 < scanned.total ∧ scanned.broken = scanned.total ∧ scanned.s.isWinning = false then
    { scanned.s with isWinning := true }
  else
    floorPhase sign (paddlePhase (wallPhase skill scanned.s))

/-! ### Per-frame ball integration (draw, lines 1060-1070) -/

/-- The frame's ball update in `draw`: integrate the position by the
velocity, apply friction to the velocity, and if the resulting speed is
positive but below `MIN_BALL_SPEED`, rescale it up to exactly
`MIN_BALL_SPEED`.  There is no corresponding upper clamp. -/
noncomputable def ballUpdate (s : GameState) : GameState :=
  let s1 := { s with ballX := s.ballX + s.dx, ballY := s.ballY + s.dy
                     dx := s.dx * BALL_FRICTION, dy := s.dy * BALL_FRICTION }
  let speed := Real.sqrt (s1.dx ^ 2 + s1.dy ^ 2)
  if speed < MIN_BALL_SPEED ∧ 0 < speed then
    { s1 with dx := s1.dx * (MIN_BALL_SPEED / speed), dy := s1.dy * (MIN_BALL_SPEED / speed) }
  else s1

/-- Speed magnitude `Math.sqrt(dx ** 2 + dy ** 2)` of the ball. -/
noncomputable def ballSpeed (s : GameState) : ℝ := Real.sqrt (s.dx ^ 2 + s.dy ^ 2)

/-! ### LoopDetector (draw, lines 946-958) -/

/-- Minimum of a list of reals (`Math.min(...)`); 0 on the empty list, which
the detector never reaches since it only looks at full histories. -/
noncomputable def listMinD : List ℝ → ℝ
  | [] => 0
  | x :: xs => xs.foldl min x

/-- Maximum of a list of reals (`Math.max(...)`). -/
noncomputable def listMaxD : List ℝ → ℝ
  | [] => 0
  | x :: xs => xs.foldl max x

/-- Result of one loop-detector step: the new history buffer, stuck flag and
recovery counter, plus whether "stuck" was raised on this step. -/
structure LoopResult where
  history : List (ℝ × ℝ)
  isStuck : Bool
  recovering : ℕ
  raised : Bool

open Classical in
/-- One step of the loop detector: push the current ball position, trim the
buffer to `AI_LOOP_DETECTION_HISTORY_LENGTH`, and, only when not already
stuck, not in recovery and the buffer is full, raise "stuck" if no brick
broke for more than `AI_STUCK_FRAMES_THRESHOLD` frames and the buffered
positions fit in a box smaller than `AI_LOOP_DETECTION_BOX_SIZE` in both
dimensions; raising clears the history and starts the
`AI_RECOVERY_FRAMES` cooldown. -/
noncomputable def loopDetect (frameCounter lastBrickBreakFrame : ℕ) (pos : ℝ × ℝ)
    (history : List (ℝ × ℝ)) (stuck : Bool) (recovering : ℕ) : LoopResult :=
  let h1 := history ++ [pos]
  let h2 := if AI_LOOP_DETECTION_HISTORY_LENGTH < h1.length then h1.tail else h1
  if stuck = false ∧ recovering = 0 ∧ h2.length = AI_LOOP_DETECTION_HISTORY_LENGTH then
    let minX := listMinD (h2.map Prod.fst)
    let maxX := listMaxD (h2.map Prod.fst)
    let minY := listMinD (h2.map Prod.snd)
    let maxY := listMaxD (h2.map Prod.snd)
    if AI_STUCK_FRAMES_THRESHOLD < frameCounter - lastBrickBreakFrame ∧
        maxX - minX < AI_LOOP_DETECTION_BOX_SIZE ∧ maxY - minY < AI_LOOP_DETECTION_BOX_SIZE then
      ⟨[], true, AI_RECOVERY_FRAMES, true⟩
    else ⟨h2, stuck, recovering, false⟩
  else ⟨h2, stuck, recovering, false⟩

/-! ### PaddleController (draw, lines 911-912) -/

/-- The AI paddle displacement of one frame: ease toward the (jittered)
target and clamp the left edge to `[0, CANVAS_WIDTH - PADDLE_WIDTH]`
(`Math.max(0, Math.min(CANVAS_WIDTH - paddle.width, paddle.x))`). -/
noncomputable def paddleMoveX (paddleX finalTargetX jitter finalEasing : ℝ) : ℝ :=
  let x1 := paddleX + (finalTargetX + jitter - (paddleX + PADDLE_WIDTH / 2)) * finalEasing
  max 0 (min (CANVAS_WIDTH - PADDLE_WIDTH) x1)

/-! ### TrajectoryPredictor (`getDefensiveTargetX`) -/

/-- The bounded wall-bounce projection loop of `getDefensiveTargetX`
(`while (timeToImpact > 0 && steps < maxSteps)` with `maxSteps = 10`,
embedded with the step budget as fuel). -/
noncomputable def defLoop : ℕ → ℝ → ℝ → ℝ → ℝ
  | 0, _, simX, _ => simX
  | Nat.succ n, timeToImpact, simX, simDX =>
    if 0 < timeToImpact then
      let timeToWall :=
        if 0 < simDX then (CANVAS_WIDTH - BALL_RADIUS - simX) / simDX
        else (simX - BALL_RADIUS) / (-simDX)
      if timeToWall ≥ timeToImpact ∨ timeToWall ≤ 0 then simX + simDX * timeToImpact
      else defLoop n (timeToImpact - timeToWall) (simX + simDX * timeToWall) (-simDX)
    else simX

/-- `getDefensiveTargetX`: if the ball is not moving down fast enough
(`dy <= 0.1`) return its current x; otherwise project the ball to the paddle
plane accounting for up to 10 side-wall bounces. -/
noncomputable def getDefensiveTargetX (s : GameState) : ℝ :=
  if s.dy ≤ 0.1 then s.ballX
  else defLoop 10 ((paddleTopY - s.ballY) / s.dy) s.ballX s.dx

/-! ### TargetSelector helpers (draw, lines 813-848) -/

/-- The golden-brick gamble target (draw, lines 814-823): aim the paddle
centre so the resulting spin sends the ball toward the golden brick's centre,
using the elevated power-shot spin relation
(`PADDLE_SPIN_FACTOR * 1.5`); the candidate is dropped unless the projected
time to impact is positive. `goldenX` is the golden brick's left-edge pixel
x.  In the embedding `dy = 0` makes `timeToImpact = 0` (division by zero is
zero), so the candidate is dropped. -/
noncomputable def goldenGambleTarget (s : GameState) (goldenX : ℝ) : Option ℝ :=
  let aimX := goldenX + BRICK_WIDTH / 2
  let timeToImpact := (paddleTopY - s.ballY) / s.dy
  if 0 < timeToImpact then
    let requiredDX := (aimX - s.ballX) / timeToImpact
    let requiredCollidePoint := requiredDX / (PADDLE_SPIN_FACTOR * 1.5)
    some (s.ballX - requiredCollidePoint * (PADDLE_WIDTH / 2))
  else none

/-- The end-game finisher target (draw, lines 838-844): required paddle
centre for a direct shot at the aim point `aimX` (the lowest remaining
brick's centre x), rejected when the centre would leave
`(PADDLE_WIDTH/2, CANVAS_WIDTH - PADDLE_WIDTH/2)`.  The division by `dy`
(through `(paddleTopY - ballY) / dy`) is not guarded in the source; in the
embedding `dy = 0` collapses `requiredDX` to 0, so the computed centre is the
ball's current x (matching the IEEE behaviour of the source away from the
paddle plane, where the divisor overflows to infinity and `requiredDX`
underflows to zero). -/
noncomputable def finisherTarget (s : GameState) (aimX : ℝ) : Option ℝ :=
  let requiredDX := (aimX - s.ballX) / ((paddleTopY - s.ballY) / s.dy)
  let requiredCollidePoint := requiredDX / PADDLE_SPIN_FACTOR
  let targetPaddleCenter := s.ballX - requiredCollidePoint * (PADDLE_WIDTH / 2)
  if targetPaddleCenter ≤ PADDLE_WIDTH / 2 ∨
      targetPaddleCenter ≥ CANVAS_WIDTH - PADDLE_WIDTH / 2 then none
  else some targetPaddleCenter

/-! ### ShotPlanner (`projectTrajectory`, `runShotSimulations`) -/

/-- The inner brick test of `projectTrajectory`: the source iterates the live
brick list from its last element down to its first and takes the first
point-in-rectangle match, removing it from the list; so the *last* matching
element of the list wins. -/
noncomputable def findHitRev (x y : ℝ) :
    List (Fin 9 × Fin 5) → Option ((Fin 9 × Fin 5) × List (Fin 9 × Fin 5))
  | [] => none
  | cr :: rest =>
    match findHitRev x y rest with
    | some (hit, rest') => some (hit, cr :: rest')
    | none =>
      if brickXpos cr.1 < x ∧ x < brickXpos cr.1 + BRICK_WIDTH ∧
          brickYpos cr.2 < y ∧ y < brickYpos cr.2 + BRICK_HEIGHT then
        some (cr, rest)
      else none

/-- The 500-iteration simulation loop of `projectTrajectory` (fuel = the
remaining step budget): integrate, record the path point, bounce off
side/top walls, stop past the bottom, hit at most one brick per step
(inverting the vertical velocity), and stop once the bounce budget `depth`
is spent. -/
noncomputable def projLoop (depth : ℕ) :
    ℕ → ℝ × ℝ × ℝ × ℝ → List (Fin 9 × Fin 5) → ℕ → List (ℝ × ℝ) → List (Fin 9 × Fin 5) →
    List (ℝ × ℝ) × List (Fin 9 × Fin 5)
  | 0, _, _, _, path, hits => (path, hits)
  | Nat.succ n, (x0, y0, dx0, dy0), live, bounces, path, hits =>
    let x := x0 + dx0
    let y := y0 + dy0
    let path := path ++ [(x, y)]
    let dx1 := if x > CANVAS_WIDTH ∨ x < 0 then -dx0 else dx0
    let bounces1 := if x > CANVAS_WIDTH ∨ x < 0 then bounces + 1 else bounces
    let dy1 := if y < 0 then -dy0 else dy0
    let bounces2 := if y < 0 then bounces1 + 1 else bounces1
    if y > CANVAS_HEIGHT then (path, hits)
    else
      match findHitRev x y live with
      | some (hit, live') =>
        let hits := hits ++ [hit]
        let bounces3 := bounces2 + 1
        if depth ≤ bounces3 then (path, hits)
        else projLoop depth n (x, y, dx1, -dy1) live' bounces3 path hits
      | none =>
        if depth ≤ bounces2 then (path, hits)
        else projLoop depth n (x, y, dx1, dy1) live bounces2 path hits

/-- Result of one simulated trajectory: the path, the bricks that would be
hit, and the score (= hit count). -/
structure TrajResult where
  path : List (ℝ × ℝ)
  hits : List (Fin 9 × Fin 5)
  score : ℕ

/-- `projectTrajectory`: forward-simulate a disposable ball against a
mutable copy of the live brick list (taken in the flat column-major order of
`bricks.flat().filter(status === 1)`). -/
noncomputable def projectTrajectory (startX startY startDX startDY : ℝ) (bricks : Grid)
    (depth : ℕ) : TrajResult :=
  let liveBricks := scanOrder.filter fun cr => (bricks cr.1 cr.2).status
  let pr := projLoop depth 500 (startX, startY, startDX, startDY) liveBricks 0
    [(startX, startY)] []
  ⟨pr.1, pr.2, pr.2.length⟩

/-- One candidate path of `runShotSimulations`, with the paddle-centre x
that would produce it. -/
structure SimulatedPath where
  path : List (ℝ × ℝ)
  hits : List (Fin 9 × Fin 5)
  score : ℕ
  requiredPaddleCenter : ℝ

/-- A retained strategic plan (`strategicPlanRef.current`). -/
structure StrategicPlan where
  paths : List SimulatedPath
  bestPathIndex : ℤ

/-- The candidate simulations of `runShotSimulations`: one forward
simulation per angle in `AI_SIMULATION_ANGLES`, launched from the current
ball x at the paddle plane with `simDX = angle * PADDLE_SPIN_FACTOR * 1.2`
and `simDY = BALL_SPEED_Y`. -/
noncomputable def simulatedPaths (s : GameState) : List SimulatedPath :=
  AI_SIMULATION_ANGLES.map fun angle =>
    let collidePoint := angle
    let requiredPaddleCenter := s.ballX - collidePoint * (PADDLE_WIDTH / 2)
    let simDX := collidePoint * PADDLE_SPIN_FACTOR * 1.2
    let simDY := BALL_SPEED_Y
    let projected := projectTrajectory s.ballX paddleTopY simDX simDY s.bricks AI_SIMULATION_DEPTH
    ⟨projected.path, projected.hits, projected.score, requiredPaddleCenter⟩

/-- `runShotSimulations`: simulate every candidate angle, select the
highest-scoring path (`forEach` with a running index, max score starting at
0 and best index at -1), and retain the plan iff the best score is strictly
greater than 1. -/
noncomputable def runShotSimulations (s : GameState) : Option StrategicPlan :=
  let paths := simulatedPaths s
  let sel := paths.foldl
    (fun (acc : ℕ × ℕ × ℤ) p =>
      if acc.2.1 < p.score then (acc.1 + 1, p.score, (acc.1 : ℤ))
      else (acc.1 + 1, acc.2.1, acc.2.2))
    (0, 0, -1)
  if 1 < sel.2.1 then some ⟨paths, sel.2.2⟩ else none

/-! ### Derived observations on scan states -/

/-- Number of alive bricks in row `r0` (the bricks a JACKPOT clears and
credits). -/
def aliveInRow (s : GameState) (r0 : Fin 5) : ℕ :=
  ((List.finRange 9).filter fun c => (s.bricks c r0).status).length

/-- The brick-scan hit test of `collisionDetection` at one cell: the cell is
alive and the closest point of its rectangle to the ball centre is within
the ball's radius. -/
def aliveOverlap (s : GameState) (cr : Fin 9 × Fin 5) : Prop :=
  (s.bricks cr.1 cr.2).status = true ∧
  (s.ballX - max (brickXpos cr.1) (min s.ballX (brickXpos cr.1 + BRICK_WIDTH))) ^ 2 +
      (s.ballY - max (brickYpos cr.2) (min s.ballY (brickYpos cr.2 + BRICK_HEIGHT))) ^ 2 <
    BALL_RADIUS * BALL_RADIUS

open Classical in
/-- The first cell in scan order whose brick the ball currently overlaps. -/
noncomputable def firstOverlap (s : GameState) : Option (Fin 9 × Fin 5) :=
  scanOrder.find? fun cr => decide (aliveOverlap s cr)

/-- No golden brick is currently alive (true in every reachable state where
the ball is a power ball, since the power ball only exists after the single
golden brick has been broken). -/
def noAliveGolden (s : GameState) : Prop :=
  ∀ (c : Fin 9) (r : Fin 5),
    ¬((s.bricks c r).isGolden = true ∧ (s.bricks c r).status = true)

/-- Every brick cell is broken (no alive brick anywhere). -/
def allBroken (s : GameState) : Prop :=
  ∀ (c : Fin 9) (r : Fin 5), (s.bricks c r).status = false

/-- The chosen layout has at least one originally-alive cell. -/
def someLayout (s : GameState) : Prop :=
  ∃ (c : Fin 9) (r : Fin 5), (s.bricks c r).inLayout = true

/-! ### Concrete states used by witnesses and counterexamples -/

/-- Grid with no layout bricks at all. -/
def emptyGrid : Grid := fun _ _ => ⟨false, false, false⟩

/-- A generic mid-match state over the empty grid. -/
noncomputable def baseState : GameState where
  ballX := 200
  ballY := 150
  dx := 3
  dy := 3
  isPowerBall := false
  powerBallTimer := 0
  paddleX := 170
  paddleVelocity := 0
  bricks := emptyGrid
  score := 0
  lives := 3
  productiveHits := 0
  nonProductiveHits := 0
  dynamicAggressionFactor := 1
  lastBrickBreakFrame := 0
  frameCounter := 0
  isPowerShotMode := false
  isStuck := false
  isWinning := false
  isLosing := false
  jackpotsThisGame := 0

/-- Grid with a single alive non-golden layout brick at cell `(0, 0)`. -/
def oneBrickGrid : Grid := fun c r =>
  if c = 0 ∧ r = 0 then ⟨true, true, false⟩ else ⟨false, false, false⟩

/-- Grid with two alive non-golden layout bricks at `(0, 0)` and `(0, 1)`. -/
def twoBrickGrid : Grid := fun c r =>
  if c = 0 ∧ (r = 0 ∨ r = 1) then ⟨true, true, false⟩ else ⟨false, false, false⟩

/-- A state whose ball is about to strike the very edge of the paddle
(contact offset 0.9, a flick shot). -/
noncomputable def flickState : GameState :=
  { baseState with ballX := 157, ballY := 274, dy := 6, paddleX := 100 }

/-- A power ball sitting between the two bricks of `twoBrickGrid`,
overlapping both at once. -/
noncomputable def powerBallState : GameState :=
  { baseState with ballX := 30, ballY := 32.5, isPowerBall := true, bricks := twoBrickGrid }

/-- A state whose ball overlaps the single remaining brick of
`oneBrickGrid`, about to break it. -/
noncomputable def lastBrickState : GameState :=
  { baseState with ballX := 30, ballY := 33, dy := -3, bricks := oneBrickGrid }

/-! ### Helper lemmas: fields each phase leaves untouched -/

@[simp] lemma clearRowCell_preserved (r : Fin 5) (s : GameState) (c : Fin 9) :
    (clearRowCell r s c).ballX = s.ballX ∧ (clearRowCell r s c).ballY = s.ballY ∧
    (clearRowCell r s c).dx = s.dx ∧ (clearRowCell r s c).dy = s.dy ∧
    (clearRowCell r s c).isPowerBall = s.isPowerBall ∧
    (clearRowCell r s c).paddleX = s.paddleX ∧
    (clearRowCell r s c).dynamicAggressionFactor = s.dynamicAggressionFactor ∧
    (clearRowCell r s c).frameCounter = s.frameCounter ∧
    (clearRowCell r s c).isStuck = s.isStuck ∧
    (clearRowCell r s c).isWinning = s.isWinning ∧
    (clearRowCell r s c).isLosing = s.isLosing ∧
    (clearRowCell r s c).lives = s.lives ∧
    (clearRowCell r s c).paddleVelocity = s.paddleVelocity ∧
    (clearRowCell r s c).nonProductiveHits = s.nonProductiveHits ∧
    (clearRowCell r s c).isPowerShotMode = s.isPowerShotMode ∧
    (clearRowCell r s c).jackpotsThisGame = s.jackpotsThisGame := by
  simp only [clearRowCell]
  split <;> simp

@[simp] lemma foldl_clearRowCell_preserved (r : Fin 5) (L : List (Fin 9)) (s : GameState) :
    (L.foldl (clearRowCell r) s).ballX = s.ballX ∧
    (L.foldl (clearRowCell r) s).ballY = s.ballY ∧
    (L.foldl (clearRowCell r) s).dx = s.dx ∧ (L.foldl (clearRowCell r) s).dy = s.dy ∧
    (L.foldl (clearRowCell r) s).isPowerBall = s.isPowerBall ∧
    (L.foldl (clearRowCell r) s).paddleX = s.paddleX ∧
    (L.foldl (clearRowCell r) s).dynamicAggressionFactor = s.dynamicAggressionFactor ∧
    (L.foldl (clearRowCell r) s).frameCounter = s.frameCounter ∧
    (L.foldl (clearRowCell r) s).isStuck = s.isStuck ∧
    (L.foldl (clearRowCell r) s).isWinning = s.isWinning ∧
    (L.foldl (clearRowCell r) s).isLosing = s.isLosing ∧
    (L.foldl (clearRowCell r) s).lives = s.lives ∧
    (L.foldl (clearRowCell r) s).paddleVelocity = s.paddleVelocity ∧
    (L.foldl (clearRowCell r) s).nonProductiveHits = s.nonProductiveHits ∧
    (L.foldl (clearRowCell r) s).isPowerShotMode = s.isPowerShotMode := by
  induction L generalizing s with
  | nil => simp
  | cons c L ih => simp [List.foldl_cons, ih]

@[simp] lemma handleGoldenBrick_preserved (brickY rand : ℝ) (s : GameState) :
    (handleGoldenBrick brickY rand s).ballX = s.ballX ∧
    (handleGoldenBrick brickY rand s).ballY = s.ballY ∧
    (handleGoldenBrick brickY rand s).paddleX = s.paddleX ∧
    (handleGoldenBrick brickY rand s).dynamicAggressionFactor = s.dynamicAggressionFactor ∧
    (handleGoldenBrick brickY rand s).frameCounter = s.frameCounter ∧
    (handleGoldenBrick brickY rand s).isStuck = s.isStuck ∧
    (handleGoldenBrick brickY rand s).isWinning = s.isWinning ∧
    (handleGoldenBrick brickY rand s).isLosing = s.isLosing ∧
    (handleGoldenBrick brickY rand s).lives = s.lives ∧
    (handleGoldenBrick brickY rand s).paddleVelocity = s.paddleVelocity ∧
    (handleGoldenBrick brickY rand s).nonProductiveHits = s.nonProductiveHits ∧
    (handleGoldenBrick brickY rand s).isPowerShotMode = s.isPowerShotMode := by
  unfold handleGoldenBrick
  cases rouletteOutcome rand with
  | JACKPOT =>
    simp only
    split <;> simp
  | POWER_BALL => simp
  | DUD => simp

@[simp] lemma cellStep_preserved (skill rand : ℝ) (acc : ScanAcc) (cr : Fin 9 × Fin 5) :
    (cellStep skill rand acc cr).s.ballX = acc.s.ballX ∧
    (cellStep skill rand acc cr).s.ballY = acc.s.ballY ∧
    (cellStep skill rand acc cr).s.paddleX = acc.s.paddleX ∧
    (cellStep skill rand acc cr).s.paddleVelocity = acc.s.paddleVelocity ∧
    (cellStep skill rand acc cr).s.lives = acc.s.lives ∧
    (cellStep skill rand acc cr).s.nonProductiveHits = acc.s.nonProductiveHits ∧
    (cellStep skill rand acc cr).s.frameCounter = acc.s.frameCounter ∧
    (cellStep skill rand acc cr).s.isPowerShotMode = acc.s.isPowerShotMode ∧
    (cellStep skill rand acc cr).s.isStuck = acc.s.isStuck ∧
    (cellStep skill rand acc cr).s.isWinning = acc.s.isWinning ∧
    (cellStep skill rand acc cr).s.isLosing = acc.s.isLosing := by
  simp only [cellStep]
  split
  · simp
  · split
    · simp
    · split
      · split_ifs <;> simp
      · simp

@[simp] lemma foldl_cellStep_preserved (skill rand : ℝ) (L : List (Fin 9 × Fin 5))
    (acc : ScanAcc) :
    ((L.foldl (cellStep skill rand) acc).s.ballX = acc.s.ballX ∧
      (L.foldl (cellStep skill rand) acc).s.ballY = acc.s.ballY) ∧
    (L.foldl (cellStep skill rand) acc).s.paddleX = acc.s.paddleX ∧
    (L.foldl (cellStep skill rand) acc).s.paddleVelocity = acc.s.paddleVelocity ∧
    (L.foldl (cellStep skill rand) acc).s.lives = acc.s.lives ∧
    (L.foldl (cellStep skill rand) acc).s.nonProductiveHits = acc.s.nonProductiveHits ∧
    (L.foldl (cellStep skill rand) acc).s.frameCounter = acc.s.frameCounter ∧
    (L.foldl (cellStep skill rand) acc).s.isPowerShotMode = acc.s.isPowerShotMode ∧
    (L.foldl (cellStep skill rand) acc).s.isStuck = acc.s.isStuck ∧
    (L.foldl (cellStep skill rand) acc).s.isWinning = acc.s.isWinning ∧
    (L.foldl (cellStep skill rand) acc).s.isLosing = acc.s.isLosing := by
  induction L generalizing acc with
  | nil => simp
  | cons cr L ih => simp [List.foldl_cons, ih]

@[simp] lemma wallPhase_preserved (skill : ℝ) (s : GameState) :
    (wallPhase skill s).paddleX = s.paddleX ∧
    (wallPhase skill s).paddleVelocity = s.paddleVelocity ∧
    (wallPhase skill s).bricks = s.bricks ∧
    (wallPhase skill s).score = s.score ∧
    (wallPhase skill s).lives = s.lives ∧
    (wallPhase skill s).productiveHits = s.productiveHits ∧
    (wallPhase skill s).lastBrickBreakFrame = s.lastBrickBreakFrame ∧
    (wallPhase skill s).frameCounter = s.frameCounter ∧
    (wallPhase skill s).isPowerBall = s.isPowerBall ∧
    (wallPhase skill s).isPowerShotMode = s.isPowerShotMode ∧
    (wallPhase skill s).isStuck = s.isStuck ∧
    (wallPhase skill s).isWinning = s.isWinning ∧
    (wallPhase skill s).isLosing = s.isLosing := by
  simp only [wallPhase]
  split_ifs <;> simp

@[simp] lemma paddlePhase_preserved (s : GameState) :
    (paddlePhase s).ballX = s.ballX ∧
    (paddlePhase s).paddleX = s.paddleX ∧
    (paddlePhase s).paddleVelocity = s.paddleVelocity ∧
    (paddlePhase s).bricks = s.bricks ∧
    (paddlePhase s).score = s.score ∧
    (paddlePhase s).lives = s.lives ∧
    (paddlePhase s).productiveHits = s.productiveHits ∧
    (paddlePhase s).nonProductiveHits = s.nonProductiveHits ∧
    (paddlePhase s).dynamicAggressionFactor = s.dynamicAggressionFactor ∧
    (paddlePhase s).lastBrickBreakFrame = s.lastBrickBreakFrame ∧
    (paddlePhase s).frameCounter = s.frameCounter ∧
    (paddlePhase s).isPowerBall = s.isPowerBall ∧
    (paddlePhase s).isWinning = s.isWinning ∧
    (paddlePhase s).isLosing = s.isLosing := by
  simp only [paddlePhase]
  split_ifs <;> simp

@[simp] lemma resetBallAndPaddle_preserved (sign : Bool) (s : GameState) :
    (resetBallAndPaddle sign s).bricks = s.bricks ∧
    (resetBallAndPaddle sign s).score = s.score ∧
    (resetBallAndPaddle sign s).lives = s.lives ∧
    (resetBallAndPaddle sign s).productiveHits = s.productiveHits ∧
    (resetBallAndPaddle sign s).nonProductiveHits = s.nonProductiveHits ∧
    (resetBallAndPaddle sign s).dynamicAggressionFactor = s.dynamicAggressionFactor ∧
    (resetBallAndPaddle sign s).lastBrickBreakFrame = s.lastBrickBreakFrame ∧
    (resetBallAndPaddle sign s).frameCounter = s.frameCounter ∧
    (resetBallAndPaddle sign s).isPowerShotMode = s.isPowerShotMode ∧
    (resetBallAndPaddle sign s).isStuck = s.isStuck ∧
    (resetBallAndPaddle sign s).isWinning = s.isWinning ∧
    (resetBallAndPaddle sign s).isLosing = s.isLosing ∧
    (resetBallAndPaddle sign s).paddleX = initialPaddleX := by
  simp [resetBallAndPaddle, initialPaddleX]

@[simp] lemma floorPhase_preserved (sign : Bool) (s : GameState) :
    (floorPhase sign s).bricks = s.bricks ∧
    (floorPhase sign s).score = s.score ∧
    (floorPhase sign s).productiveHits = s.productiveHits ∧
    (floorPhase sign s).nonProductiveHits = s.nonProductiveHits ∧
    (floorPhase sign s).dynamicAggressionFactor = s.dynamicAggressionFactor ∧
    (floorPhase sign s).lastBrickBreakFrame = s.lastBrickBreakFrame ∧
    (floorPhase sign s).frameCounter = s.frameCounter ∧
    (floorPhase sign s).isPowerShotMode = s.isPowerShotMode ∧
    (floorPhase sign s).isStuck = s.isStuck ∧
    (floorPhase sign s).isWinning = s.isWinning := by
  simp only [floorPhase]
  split_ifs <;> simp

lemma floorPhase_paddleX (sign : Bool) (s : GameState) :
    (floorPhase sign s).paddleX = s.paddleX ∨ (floorPhase sign s).paddleX = initialPaddleX := by
  simp only [floorPhase]
  split_ifs <;> simp [resetBallAndPaddle, initialPaddleX]

/-! ### Helper lemmas: how the confidence scalar can change -/

lemma cellStep_aggr (skill rand : ℝ) (acc : ScanAcc) (cr : Fin 9 × Fin 5) :
    (cellStep skill rand acc cr).s.dynamicAggressionFactor = acc.s.dynamicAggressionFactor ∨
    (cellStep skill rand acc cr).s.dynamicAggressionFactor =
      min 1.5 (acc.s.dynamicAggressionFactor + 0.05 * skill) := by
  simp only [cellStep]
  split
  · exact Or.inl rfl
  · split
    · exact Or.inl rfl
    · split
      · right
        split_ifs <;> simp
      · exact Or.inl rfl

/-- A confidence decrease `max 0.5 (a - 0.02 * skill)` stays in `[0.5, 1.5]`
when `a` does and the skill level is non-negative. -/
lemma aggr_dec_bounds {skill a : ℝ} (hs : 0 ≤ skill) (_ha : 0.5 ≤ a) (hb : a ≤ 1.5) :
    0.5 ≤ max 0.5 (a - 0.02 * skill) ∧ max 0.5 (a - 0.02 * skill) ≤ 1.5 :=
  ⟨le_max_left _ _, max_le (by norm_num) (by nlinarith)⟩

lemma wallPhase_aggr_cases (skill : ℝ) (s : GameState) :
    (wallPhase skill s).dynamicAggressionFactor = s.dynamicAggressionFactor ∨
    (wallPhase skill s).dynamicAggressionFactor =
      max 0.5 (s.dynamicAggressionFactor - 0.02 * skill) ∨
    (wallPhase skill s).dynamicAggressionFactor =
      max 0.5 (max 0.5 (s.dynamicAggressionFactor - 0.02 * skill) - 0.02 * skill) := by
  simp only [wallPhase]
  split_ifs <;> simp

lemma scan_aggr_bounds {skill : ℝ} (rand : ℝ) (hs : 0 ≤ skill) (L : List (Fin 9 × Fin 5)) :
    ∀ acc : ScanAcc, 0.5 ≤ acc.s.dynamicAggressionFactor →
      acc.s.dynamicAggressionFactor ≤ 1.5 →
      0.5 ≤ (L.foldl (cellStep skill rand) acc).s.dynamicAggressionFactor ∧
      (L.foldl (cellStep skill rand) acc).s.dynamicAggressionFactor ≤ 1.5 := by
  induction L with
  | nil => exact fun acc ha hb => ⟨ha, hb⟩
  | cons cr L ih =>
    intro acc ha hb
    simp only [List.foldl_cons]
    have hstep : 0.5 ≤ (cellStep skill rand acc cr).s.dynamicAggressionFactor ∧
        (cellStep skill rand acc cr).s.dynamicAggressionFactor ≤ 1.5 := by
      rcases cellStep_aggr skill rand acc cr with h1 | h1 <;> rw [h1]
      · exact ⟨ha, hb⟩
      · have h2 : 0 ≤ 0.05 * skill := by nlinarith
        exact ⟨le_min (by norm_num) (by linarith), min_le_left _ _⟩
    exact ih _ hstep.1 hstep.2

/-! ### Helper lemmas: the JACKPOT row clear -/

/-- Setting an already-broken brick's status to broken is the identity. -/
lemma brick_set_false (b : Brick) (h : b.status = false) :
    ({ b with status := false } : Brick) = b := by
  cases b
  simp_all

lemma clearRowCell_bricks (r0 : Fin 5) (s : GameState) (c c' : Fin 9) (r' : Fin 5) :
    (clearRowCell r0 s c).bricks c' r' =
      if c' = c ∧ r' = r0 ∧ (s.bricks c r0).status = true
      then { s.bricks c' r' with status := false } else s.bricks c' r' := by
  simp only [clearRowCell]
  by_cases h1 : (s.bricks c r0).status = true
  · rw [if_pos h1]
    by_cases h2 : c' = c ∧ r' = r0
    · obtain ⟨hc, hr⟩ := h2
      subst hc; subst hr
      simp [h1]
    · simp only [if_neg h2]
      rw [if_neg]
      tauto
  · rw [if_neg h1]
    rw [if_neg]
    tauto

lemma clearRowCell_score (r0 : Fin 5) (s : GameState) (c : Fin 9) :
    (clearRowCell r0 s c).score =
      s.score + if (s.bricks c r0).status = true then POINTS_PER_BRICK else 0 := by
  simp only [clearRowCell]
  split_ifs <;> simp

lemma clearRowCell_prodHits (r0 : Fin 5) (s : GameState) (c : Fin 9) :
    (clearRowCell r0 s c).productiveHits =
      s.productiveHits + if (s.bricks c r0).status = true then 1 else 0 := by
  simp only [clearRowCell]
  split_ifs <;> simp

/-- Effect of the whole JACKPOT column loop over a duplicate-free column
list: every listed cell of the row ends up broken, nothing else changes, and
score and productive hits grow once per cleared brick. -/
lemma foldl_clearRow_spec (r0 : Fin 5) (L : List (Fin 9)) (hL : L.Nodup) (s : GameState) :
    (∀ (c' : Fin 9) (r' : Fin 5),
      (L.foldl (clearRowCell r0) s).bricks c' r' =
        if r' = r0 ∧ c' ∈ L then { s.bricks c' r' with status := false }
        else s.bricks c' r') ∧
    (L.foldl (clearRowCell r0) s).score =
      s.score + POINTS_PER_BRICK * (L.filter fun c => (s.bricks c r0).status).length ∧
    (L.foldl (clearRowCell r0) s).productiveHits =
      s.productiveHits + (L.filter fun c => (s.bricks c r0).status).length ∧
    (L.foldl (clearRowCell r0) s).jackpotsThisGame = s.jackpotsThisGame := by
  induction L generalizing s with
  | nil => simp
  | cons c L ih =>
    obtain ⟨hc, hL'⟩ := List.nodup_cons.mp hL
    obtain ⟨ihb, ihs, ihp, ihj⟩ := ih hL' (clearRowCell r0 s c)
    have hb' := clearRowCell_bricks r0 s c
    have hsame : ∀ c' ∈ L, (clearRowCell r0 s c).bricks c' r0 = s.bricks c' r0 := by
      intro c' hmem
      rw [hb']
      have : ¬(c' = c) := fun hEq => hc (hEq ▸ hmem)
      simp [this]
    have hfil : (L.filter fun c' => ((clearRowCell r0 s c).bricks c' r0).status) =
        (L.filter fun c' => (s.bricks c' r0).status) :=
      List.filter_congr fun c' hmem => by rw [hsame c' hmem]
    simp only [List.foldl_cons]
    refine ⟨?_, ?_, ?_, ?_⟩
    · intro c' r'
      rw [ihb c' r', hb' c' r']
      by_cases hr : r' = r0
      · subst hr
        by_cases hcc : c' = c
        · subst hcc
          by_cases hst : (s.bricks c' r').status = true
          · simp [hc, hst]
          · have hstf : (s.bricks c' r').status = false := by simpa using hst
            simp [hc, hst, brick_set_false _ hstf]
        · by_cases hcl : c' ∈ L
          · simp [hcc, hcl, List.mem_cons]
          · simp [hcc, hcl, List.mem_cons]
      · simp [hr]
    · rw [ihs, hfil, clearRowCell_score]
      rw [List.filter_cons]
      by_cases hst : (s.bricks c r0).status = true
      · simp only [hst, if_true, List.length_cons, POINTS_PER_BRICK]
        omega
      · simp [hst]
    · rw [ihp, hfil, clearRowCell_prodHits]
      rw [List.filter_cons]
      by_cases hst : (s.bricks c r0).status = true
      · simp only [hst, if_true, List.length_cons]
        omega
      · simp [hst]
    · rw [ihj]
      have : (clearRowCell r0 s c).jackpotsThisGame = s.jackpotsThisGame := by
        simp only [clearRowCell]
        split <;> rfl
      rw [this]

/-- The JACKPOT branch recovers the triggering brick's row index exactly. -/
lemma round_rowIdx (r : Fin 5) :
    round ((brickYpos r - BRICK_OFFSET_TOP) / (BRICK_HEIGHT + BRICK_PADDING)) = (r : ℤ) := by
  unfold brickYpos BRICK_OFFSET_TOP BRICK_HEIGHT BRICK_PADDING
  have h : ((r : ℝ) * ((10 : ℝ) + 5) + 20 - 20) / ((10 : ℝ) + 5) = ((r : ℕ) : ℝ) := by
    field_simp
  rw [h, round_natCast]

/-! ### Helper lemmas: the brick-scan hit discipline -/

/-- A cell whose brick the ball does not overlap (or any cell once the
one-hit flag is set) leaves the game state, the hit list and the flag
unchanged. -/
lemma cellStep_not_fire (skill rand : ℝ) (acc : ScanAcc) (cr : Fin 9 × Fin 5)
    (h : ¬aliveOverlap acc.s cr ∨ acc.flag = true) :
    (cellStep skill rand acc cr).s = acc.s ∧
    (cellStep skill rand acc cr).hits = acc.hits ∧
    (cellStep skill rand acc cr).flag = acc.flag := by
  simp only [cellStep]
  by_cases h1 : (acc.s.bricks cr.1 cr.2).status = false ∧
      (acc.s.bricks cr.1 cr.2).inLayout = false
  · rw [if_pos h1]
    exact ⟨rfl, rfl, rfl⟩
  · rw [if_neg h1]
    by_cases h2 : (acc.s.bricks cr.1 cr.2).status = false
    · rw [if_pos h2]
      exact ⟨rfl, rfl, rfl⟩
    · rw [if_neg h2]
      split_ifs with h3 h4 h5 <;>
        first
          | exact ⟨rfl, rfl, rfl⟩
          | (exfalso
             rcases h with h | h
             · exact h ⟨by simpa using h2, h3.1⟩
             · have := h3.2
               simp [h] at this)

/-- An overlapped alive cell with the flag still clear registers a hit:
the cell is appended to the hit list, and the flag is raised only for a
non-power ball. -/
lemma cellStep_fire (skill rand : ℝ) (acc : ScanAcc) (cr : Fin 9 × Fin 5)
    (hov : aliveOverlap acc.s cr) (hfl : acc.flag = false) :
    (cellStep skill rand acc cr).hits = acc.hits ++ [cr] ∧
    (cellStep skill rand acc cr).flag =
      (if acc.s.isPowerBall then acc.flag else true) := by
  obtain ⟨hst, hd⟩ := hov
  simp only [cellStep]
  rw [if_neg (by simp [hst]), if_neg (by simp [hst]), if_pos ⟨hd, hfl⟩]
  exact ⟨rfl, rfl⟩

/-- Extra facts about a registered hit on a non-golden cell: the ball's
velocity and power flag survive untouched when the ball is a power ball,
the hit cell's brick is broken, and no other brick changes. -/
lemma cellStep_fire_nogolden (skill rand : ℝ) (acc : ScanAcc) (cr : Fin 9 × Fin 5)
    (hov : aliveOverlap acc.s cr) (hfl : acc.flag = false)
    (hg : (acc.s.bricks cr.1 cr.2).isGolden = false) :
    (cellStep skill rand acc cr).s.isPowerBall = acc.s.isPowerBall ∧
    (cellStep skill rand acc cr).s.bricks cr.1 cr.2 =
      { acc.s.bricks cr.1 cr.2 with status := false } ∧
    (∀ (c' : Fin 9) (r' : Fin 5), ¬(c' = cr.1 ∧ r' = cr.2) →
      (cellStep skill rand acc cr).s.bricks c' r' = acc.s.bricks c' r') ∧
    (acc.s.isPowerBall = true →
      (cellStep skill rand acc cr).s.dx = acc.s.dx ∧
      (cellStep skill rand acc cr).s.dy = acc.s.dy) := by
  obtain ⟨hst, hd⟩ := hov
  simp only [cellStep]
  rw [if_neg (by simp [hst]), if_neg (by simp [hst]), if_pos ⟨hd, hfl⟩]
  simp only [hg, Bool.false_eq_true, if_false]
  refine ⟨?_, ?_, ?_, ?_⟩
  · split_ifs <;> rfl
  · split_ifs <;> simp
  · intro c' r' hne
    split_ifs <;> simp [hne]
  · intro hp
    rw [if_neg]
    · exact ⟨rfl, rfl⟩
    · simp [hp]

/-- A dead cell can never pass the hit test. -/
lemma not_aliveOverlap_of_dead {s : GameState} {cr : Fin 9 × Fin 5}
    (hdead : (s.bricks cr.1 cr.2).status = false) : ¬aliveOverlap s cr := by
  simp [aliveOverlap, hdead]

/-- A never-alive cell is skipped entirely: nothing at all changes. -/
lemma cellStep_skip (skill rand : ℝ) (acc : ScanAcc) (cr : Fin 9 × Fin 5)
    (h1 : (acc.s.bricks cr.1 cr.2).status = false)
    (h2 : (acc.s.bricks cr.1 cr.2).inLayout = false) :
    cellStep skill rand acc cr = acc := by
  simp only [cellStep]
  rw [if_pos ⟨h1, h2⟩]

/-- A cell alive at its visit is counted into the layout total but not into
the broken count. -/
lemma cellStep_alive_counters (skill rand : ℝ) (acc : ScanAcc) (cr : Fin 9 × Fin 5)
    (hst : (acc.s.bricks cr.1 cr.2).status = true) :
    (cellStep skill rand acc cr).total = acc.total + 1 ∧
    (cellStep skill rand acc cr).broken = acc.broken := by
  simp only [cellStep]
  rw [if_neg (by simp [hst]), if_neg (by simp [hst])]
  split_ifs <;> exact ⟨rfl, rfl⟩

/-- A registered hit also counts the cell as alive in the loop counters. -/
lemma cellStep_fire_counters (skill rand : ℝ) (acc : ScanAcc) (cr : Fin 9 × Fin 5)
    (hov : aliveOverlap acc.s cr) :
    (cellStep skill rand acc cr).total = acc.total + 1 ∧
    (cellStep skill rand acc cr).broken = acc.broken :=
  cellStep_alive_counters skill rand acc cr hov.1

/-- The per-cell counter increments: skipped, broken-at-visit, or
alive-at-visit. -/
lemma cellStep_counters (skill rand : ℝ) (acc : ScanAcc) (cr : Fin 9 × Fin 5) :
    ((cellStep skill rand acc cr).total = acc.total ∧
      (cellStep skill rand acc cr).broken = acc.broken) ∨
    ((cellStep skill rand acc cr).total = acc.total + 1 ∧
      (cellStep skill rand acc cr).broken = acc.broken + 1) ∨
    ((cellStep skill rand acc cr).total = acc.total + 1 ∧
      (cellStep skill rand acc cr).broken = acc.broken) := by
  simp only [cellStep]
  split_ifs <;> simp

/-- The scan never closes the gap between the layout total and the broken
count. -/
lemma scan_counters_lt (skill rand : ℝ) (L : List (Fin 9 × Fin 5)) :
    ∀ acc : ScanAcc, acc.broken < acc.total →
      (L.foldl (cellStep skill rand) acc).broken < (L.foldl (cellStep skill rand) acc).total := by
  induction L with
  | nil => exact fun acc h => h
  | cons cr L ih =>
    intro acc h
    simp only [List.foldl_cons]
    apply ih
    rcases cellStep_counters skill rand acc cr with ⟨h1, h2⟩ | ⟨h1, h2⟩ | ⟨h1, h2⟩ <;>
      omega

/-- If some listed cell is still alive when the scan starts, the loop ends
with strictly fewer broken bricks than counted layout bricks — so the win
check cannot pass on the frame that breaks the last brick. -/
lemma scan_exists_alive_lt (skill rand : ℝ) (L : List (Fin 9 × Fin 5)) :
    ∀ acc : ScanAcc, acc.broken ≤ acc.total →
      (∃ cr ∈ L, (acc.s.bricks cr.1 cr.2).status = true) →
      (L.foldl (cellStep skill rand) acc).broken <
        (L.foldl (cellStep skill rand) acc).total := by
  induction L with
  | nil => rintro acc - ⟨cr, hmem, -⟩; exact absurd hmem (List.not_mem_nil cr)
  | cons cr L ih =>
    rintro acc hle ⟨cr', hmem, halive⟩
    simp only [List.foldl_cons]
    by_cases hst : (acc.s.bricks cr.1 cr.2).status = true
    · obtain ⟨h1, h2⟩ := cellStep_alive_counters skill rand acc cr hst
      exact scan_counters_lt skill rand L _ (by omega)
    · have hdead : (acc.s.bricks cr.1 cr.2).status = false := by
        simpa using hst
      have hs := (cellStep_not_fire skill rand acc cr
        (Or.inl (not_aliveOverlap_of_dead hdead))).1
      have hmem' : cr' ∈ L := by
        rcases List.mem_cons.mp hmem with hEq | hmem'
        · subst hEq; exact absurd halive (by simp [hdead])
        · exact hmem'
      have hle' : (cellStep skill rand acc cr).broken ≤ (cellStep skill rand acc cr).total := by
        rcases cellStep_counters skill rand acc cr with ⟨h1, h2⟩ | ⟨h1, h2⟩ | ⟨h1, h2⟩ <;>
          omega
      exact ih _ hle' ⟨cr', hmem', by rw [hs]; exact halive⟩

/-- When every brick is already broken at scan start, the scan changes
nothing and both counters grow by exactly the number of layout cells
visited, so the win check passes whenever the layout is nonempty. -/
lemma scan_allBroken (skill rand : ℝ) (L : List (Fin 9 × Fin 5)) :
    ∀ acc : ScanAcc, allBroken acc.s →
      (L.foldl (cellStep skill rand) acc).s = acc.s ∧
      (L.foldl (cellStep skill rand) acc).total =
        acc.total + (L.filter fun cr => (acc.s.bricks cr.1 cr.2).inLayout).length ∧
      (L.foldl (cellStep skill rand) acc).broken =
        acc.broken + (L.filter fun cr => (acc.s.bricks cr.1 cr.2).inLayout).length := by
  induction L with
  | nil => exact fun acc _ => ⟨rfl, by simp, by simp⟩
  | cons cr L ih =>
    intro acc hab
    simp only [List.foldl_cons, List.filter_cons]
    have hdead := hab cr.1 cr.2
    by_cases hil : (acc.s.bricks cr.1 cr.2).inLayout = true
    · have hstep : cellStep skill rand acc cr =
          { acc with total := acc.total + 1, broken := acc.broken + 1 } := by
        simp only [cellStep]
        rw [if_neg (by simp [hil]), if_pos hdead]
      rw [hstep]
      obtain ⟨ih1, ih2, ih3⟩ :=
        ih { acc with total := acc.total + 1, broken := acc.broken + 1 } hab
      refine ⟨ih1, ?_, ?_⟩
      · rw [ih2]
        simp [hil]
        omega
      · rw [ih3]
        simp [hil]
        omega
    · have hil' : (acc.s.bricks cr.1 cr.2).inLayout = false := by simpa using hil
      rw [cellStep_skip skill rand acc cr hdead hil']
      obtain ⟨ih1, ih2, ih3⟩ := ih acc hab
      refine ⟨ih1, ?_, ?_⟩
      · rw [ih2]
        simp [hil']
      · rw [ih3]
        simp [hil']

/-- Once the one-hit flag is set, the rest of the scan registers nothing and
leaves the state alone. -/
lemma foldl_flag_true (skill rand : ℝ) (L : List (Fin 9 × Fin 5)) :
    ∀ acc : ScanAcc, acc.flag = true →
      (L.foldl (cellStep skill rand) acc).hits = acc.hits ∧
      (L.foldl (cellStep skill rand) acc).flag = true ∧
      (L.foldl (cellStep skill rand) acc).s = acc.s := by
  induction L with
  | nil => exact fun acc h => ⟨rfl, h, rfl⟩
  | cons cr L ih =>
    intro acc h
    simp only [List.foldl_cons]
    obtain ⟨hs, hh, hf⟩ := cellStep_not_fire skill rand acc cr (Or.inr h)
    obtain ⟨ih1, ih2, ih3⟩ := ih (cellStep skill rand acc cr) (hf.trans h)
    exact ⟨ih1.trans hh, ih2, ih3.trans hs⟩

/-- The scan only ever appends to the hit list. -/
lemma foldl_hits_append (skill rand : ℝ) (L : List (Fin 9 × Fin 5)) :
    ∀ acc : ScanAcc, ∃ t, (L.foldl (cellStep skill rand) acc).hits = acc.hits ++ t := by
  induction L with
  | nil => exact fun acc => ⟨[], by simp⟩
  | cons cr L ih =>
    intro acc
    simp only [List.foldl_cons]
    have hstep : ∃ t0, (cellStep skill rand acc cr).hits = acc.hits ++ t0 := by
      by_cases hov : aliveOverlap acc.s cr
      · by_cases hfl : acc.flag = false
        · exact ⟨[cr], (cellStep_fire skill rand acc cr hov hfl).1⟩
        · exact ⟨[], by
            simp [(cellStep_not_fire skill rand acc cr (Or.inr (by simpa using hfl))).2.1]⟩
      · exact ⟨[], by simp [(cellStep_not_fire skill rand acc cr (Or.inl hov)).2.1]⟩
    obtain ⟨t0, ht0⟩ := hstep
    obtain ⟨t1, ht1⟩ := ih (cellStep skill rand acc cr)
    exact ⟨t0 ++ t1, by rw [ht1, ht0, List.append_assoc]⟩

open Classical in
/-- A non-power ball's whole scan: either nothing was hit (and the state is
untouched), or exactly the first overlapped alive cell in list order was
hit. -/
lemma scan_nonpower_hits (skill rand : ℝ) (L : List (Fin 9 × Fin 5)) :
    ∀ acc : ScanAcc, acc.flag = false → acc.s.isPowerBall = false → acc.hits = [] →
      ((L.foldl (cellStep skill rand) acc).hits = [] ∧
        (L.foldl (cellStep skill rand) acc).s = acc.s ∧
        (L.foldl (cellStep skill rand) acc).flag = false) ∨
      (∃ cr0, (L.foldl (cellStep skill rand) acc).hits = [cr0] ∧
        L.find? (fun cr => decide (aliveOverlap acc.s cr)) = some cr0) := by
  induction L with
  | nil => exact fun acc h1 _ h3 => Or.inl ⟨h3, rfl, h1⟩
  | cons cr L ih =>
    intro acc hfl hpw hh
    simp only [List.foldl_cons]
    by_cases hov : aliveOverlap acc.s cr
    · right
      obtain ⟨hhits, hflag⟩ := cellStep_fire skill rand acc cr hov hfl
      rw [hpw] at hflag
      simp only [if_false, Bool.false_eq_true] at hflag
      obtain ⟨habs, -⟩ := foldl_flag_true skill rand L (cellStep skill rand acc cr) hflag
      refine ⟨cr, ?_, ?_⟩
      · rw [habs, hhits, hh]
        rfl
      · rw [List.find?_cons_of_pos _ (by simp [hov])]
    · have hnf := cellStep_not_fire skill rand acc cr (Or.inl hov)
      have hrec := ih (cellStep skill rand acc cr) (hnf.2.2.trans hfl)
        (by rw [hnf.1]; exact hpw) (hnf.2.1.trans hh)
      rw [hnf.1] at hrec
      rcases hrec with ⟨h1, h2, h3⟩ | ⟨cr0, h1, h2⟩
      · exact Or.inl ⟨h1, h2, h3⟩
      · exact Or.inr ⟨cr0, h1,
          by rw [List.find?_cons_of_neg _ (by simp [hov])]; exact h2⟩

/-- A stretch of never-alive cells leaves the whole accumulator unchanged. -/
lemma foldl_skip_all (skill rand : ℝ) (L : List (Fin 9 × Fin 5)) :
    ∀ acc : ScanAcc,
      (∀ cr ∈ L, (acc.s.bricks cr.1 cr.2).status = false ∧
        (acc.s.bricks cr.1 cr.2).inLayout = false) →
      L.foldl (cellStep skill rand) acc = acc := by
  induction L with
  | nil => exact fun acc _ => rfl
  | cons cr L ih =>
    intro acc h
    simp only [List.foldl_cons]
    rw [cellStep_skip skill rand acc cr (h cr (List.mem_cons_self cr L)).1
      (h cr (List.mem_cons_self cr L)).2]
    exact ih acc fun cr' hm => h cr' (List.mem_cons_of_mem cr hm)

/-- Every cell of the grid is visited by the scan. -/
lemma mem_scanOrder (x : Fin 9 × Fin 5) : x ∈ scanOrder := by
  revert x
  decide

/-- The floor phase never clears the losing flag. -/
lemma floorPhase_isLosing_mono (sign : Bool) (s : GameState) (h : s.isLosing = true) :
    (floorPhase sign s).isLosing = true := by
  simp only [floorPhase]
  split_ifs <;> simp [resetBallAndPaddle, h]

/-- A power ball's scan can never invert or otherwise change the velocity
when no golden brick is alive (which is every reachable power-ball state). -/
lemma scan_power_velocity (skill rand : ℝ) (L : List (Fin 9 × Fin 5)) :
    ∀ acc : ScanAcc, acc.s.isPowerBall = true → noAliveGolden acc.s →
      (L.foldl (cellStep skill rand) acc).s.dx = acc.s.dx ∧
      (L.foldl (cellStep skill rand) acc).s.dy = acc.s.dy := by
  induction L with
  | nil => exact fun acc _ _ => ⟨rfl, rfl⟩
  | cons cr L ih =>
    intro acc hp hg
    simp only [List.foldl_cons]
    have hstep : (cellStep skill rand acc cr).s.dx = acc.s.dx ∧
        (cellStep skill rand acc cr).s.dy = acc.s.dy ∧
        (cellStep skill rand acc cr).s.isPowerBall = true ∧
        noAliveGolden (cellStep skill rand acc cr).s := by
      by_cases hov : aliveOverlap acc.s cr
      · by_cases hfl : acc.flag = false
        · have hgc : (acc.s.bricks cr.1 cr.2).isGolden = false := by
            have hng := hg cr.1 cr.2
            rcases Bool.eq_false_or_eq_true (acc.s.bricks cr.1 cr.2).isGolden with h | h
            · exact absurd ⟨h, hov.1⟩ hng
            · exact h
          obtain ⟨hpw, hcell, hother, hvel⟩ :=
            cellStep_fire_nogolden skill rand acc cr hov hfl hgc
          obtain ⟨hdx, hdy⟩ := hvel hp
          refine ⟨hdx, hdy, hpw.trans hp, ?_⟩
          intro c r
          by_cases hne : c = cr.1 ∧ r = cr.2
          · obtain ⟨hc, hr⟩ := hne
            subst hc; subst hr
            rw [hcell]
            simp
          · rw [hother c r hne]
            exact hg c r
        · have hnf := cellStep_not_fire skill rand acc cr
            (Or.inr (by simpa using hfl))
          rw [hnf.1]
          exact ⟨rfl, rfl, hp, hg⟩
      · have hnf := cellStep_not_fire skill rand acc cr (Or.inl hov)
        rw [hnf.1]
        exact ⟨rfl, rfl, hp, hg⟩
    obtain ⟨h1, h2, h3, h4⟩ := hstep
    obtain ⟨ih1, ih2⟩ := ih (cellStep skill rand acc cr) h3 h4
    exact ⟨ih1.trans h1, ih2.trans h2⟩

/-! ### Claim theorems -/

/-- Claim C6: for every draw `r` in `[0,1)`, the golden-brick resolver
classifies JACKPOT iff `r < jackpotP`, POWER_BALL iff
`jackpotP ≤ r < jackpotP + powerBallP`, DUD otherwise, with
`jackpotP = 0.25` and `powerBallP = 0.35`. -/
theorem roulette_thresholds (r : ℝ) (_h0 : 0 ≤ r) (h1 : r < 1) :
    (rouletteOutcome r = GoldenOutcome.JACKPOT ↔ r < GOLDEN_JACKPOT_CHANCE) ∧
    (rouletteOutcome r = GoldenOutcome.POWER_BALL ↔
      GOLDEN_JACKPOT_CHANCE ≤ r ∧ r < GOLDEN_JACKPOT_CHANCE + GOLDEN_POWER_BALL_CHANCE) ∧
    (rouletteOutcome r = GoldenOutcome.DUD ↔
      GOLDEN_JACKPOT_CHANCE + GOLDEN_POWER_BALL_CHANCE ≤ r) ∧
    GOLDEN_JACKPOT_CHANCE = 0.25 ∧ GOLDEN_POWER_BALL_CHANCE = 0.35 := by
  refine ⟨?_, ?_, ?_, rfl, rfl⟩ <;>
    · unfold rouletteOutcome GOLDEN_JACKPOT_CHANCE GOLDEN_POWER_BALL_CHANCE
      split_ifs with hJ hP <;> simp_all <;> linarith

/-- Witness for C6 at `r = 0.5`: the resolver yields POWER_BALL. -/
theorem roulette_thresholds_witness :
    rouletteOutcome 0.5 = GoldenOutcome.POWER_BALL :=
  ((roulette_thresholds 0.5 (by norm_num) (by norm_num)).2.1).2
    ⟨by norm_num [GOLDEN_JACKPOT_CHANCE],
     by norm_num [GOLDEN_JACKPOT_CHANCE, GOLDEN_POWER_BALL_CHANCE]⟩

/-- Claim C4: the defensive projection is guarded by `dy ≤ 0.1` (it returns
the ball's current x without dividing); the golden-gamble shot-offset
division is guarded by the positive-time check, which at `dy = 0` drops the
candidate; and the finisher's required-offset computation at `dy = 0`
degenerates to the ball's current x or a dropped candidate — so no targeting
computation is left undefined for any ball state. -/
theorem ai_division_guards :
    (∀ s : GameState, s.dy ≤ 0.1 → getDefensiveTargetX s = s.ballX) ∧
    (∀ (s : GameState) (gx : ℝ), s.dy = 0 → goldenGambleTarget s gx = none) ∧
    (∀ (s : GameState) (ax : ℝ), s.dy = 0 →
      finisherTarget s ax = none ∨ finisherTarget s ax = some s.ballX) := by
  refine ⟨?_, ?_, ?_⟩
  · intro s h
    unfold getDefensiveTargetX
    rw [if_pos h]
  · intro s gx h
    unfold goldenGambleTarget
    simp [h]
  · intro s ax h
    unfold finisherTarget
    simp only [h, div_zero, zero_div, zero_mul, sub_zero]
    split_ifs
    · exact Or.inl rfl
    · exact Or.inr rfl

/-- Claim C7: the paddle's left edge always lies in
`[0, CANVAS_WIDTH - PADDLE_WIDTH]` after every frame: the AI movement step
clamps unconditionally, the initial and reset positions are the centred
`initialPaddleX`, and `collisionDetection` (the only other code that can
touch the paddle, through `resetBallAndPaddle`) keeps the position in range.
With AI disabled no code moves the paddle at all, so the invariant follows
from the initial value. -/
theorem paddle_x_clamped :
    (∀ paddleX finalTargetX jitter finalEasing : ℝ,
      0 ≤ paddleMoveX paddleX finalTargetX jitter finalEasing ∧
      paddleMoveX paddleX finalTargetX jitter finalEasing ≤ CANVAS_WIDTH - PADDLE_WIDTH) ∧
    (0 ≤ initialPaddleX ∧ initialPaddleX ≤ CANVAS_WIDTH - PADDLE_WIDTH) ∧
    (∀ (sign : Bool) (s : GameState), (resetBallAndPaddle sign s).paddleX = initialPaddleX) ∧
    (∀ (skill rand : ℝ) (sign : Bool) (s : GameState),
      0 ≤ s.paddleX → s.paddleX ≤ CANVAS_WIDTH - PADDLE_WIDTH →
      0 ≤ (collisionDetection skill rand sign s).paddleX ∧
      (collisionDetection skill rand sign s).paddleX ≤ CANVAS_WIDTH - PADDLE_WIDTH) := by
  refine ⟨?_, ?_, ?_, ?_⟩
  · intro paddleX finalTargetX jitter finalEasing
    unfold paddleMoveX
    constructor
    · exact le_max_left 0 _
    · exact max_le (by norm_num [CANVAS_WIDTH, PADDLE_WIDTH]) (min_le_left _ _)
  · norm_num [initialPaddleX, CANVAS_WIDTH, PADDLE_WIDTH]
  · intro sign s
    exact (resetBallAndPaddle_preserved sign s).2.2.2.2.2.2.2.2.2.2.2.2
  · intro skill rand sign s h0 h1
    have hscan : (brickScan skill rand s).s.paddleX = s.paddleX := by
      unfold brickScan
      exact (foldl_cellStep_preserved skill rand scanOrder ⟨s, 0, 0, false, []⟩).2.1
    simp only [collisionDetection]
    split_ifs with hwin
    · simpa [hscan] using ⟨h0, h1⟩
    · have hw : (wallPhase skill (brickScan skill rand s).s).paddleX = s.paddleX := by
        rw [(wallPhase_preserved _ _).1, hscan]
      have hp :
          (paddlePhase (wallPhase skill (brickScan skill rand s).s)).paddleX = s.paddleX := by
        rw [(paddlePhase_preserved _).2.1, hw]
      rcases floorPhase_paddleX sign
          (paddlePhase (wallPhase skill (brickScan skill rand s).s)) with hf | hf
      · rw [hf, hp]; exact ⟨h0, h1⟩
      · rw [hf]; norm_num [initialPaddleX, CANVAS_WIDTH, PADDLE_WIDTH]

/-- Witness for C7: one `collisionDetection` call from the generic state
keeps the paddle in range. -/
theorem paddle_x_clamped_witness :
    0 ≤ (collisionDetection 1 1 true baseState).paddleX ∧
    (collisionDetection 1 1 true baseState).paddleX ≤ CANVAS_WIDTH - PADDLE_WIDTH :=
  paddle_x_clamped.2.2.2 1 1 true baseState
    (by norm_num [baseState]) (by norm_num [baseState, CANVAS_WIDTH, PADDLE_WIDTH])

/-- Claim C9: the loop detector never raises "stuck" while the stuck flag is
already set or while the recovery cooldown is nonzero (the raise branch is
gated on `!isStuck && recovering === 0`), and the stuck flag is cleared by
the paddle phase exactly on ball-paddle contact (and otherwise left
alone). -/
theorem loop_detector_discipline :
    (∀ (frame lastBreak : ℕ) (pos : ℝ × ℝ) (history : List (ℝ × ℝ))
        (stuck : Bool) (recovering : ℕ),
      stuck = true ∨ recovering ≠ 0 →
      (loopDetect frame lastBreak pos history stuck recovering).isStuck = stuck ∧
      (loopDetect frame lastBreak pos history stuck recovering).recovering = recovering ∧
      (loopDetect frame lastBreak pos history stuck recovering).raised = false) ∧
    (∀ s : GameState, paddleHitCond s → (paddlePhase s).isStuck = false) ∧
    (∀ s : GameState, ¬paddleHitCond s → (paddlePhase s).isStuck = s.isStuck) := by
  refine ⟨?_, ?_, ?_⟩
  · intro frame lastBreak pos history stuck recovering h
    rcases h with h | h
    · subst h
      simp [loopDetect]
    · simp [loopDetect, h]
  · intro s h
    simp only [paddlePhase, if_pos h]
    split_ifs <;> simp
  · intro s h
    simp only [paddlePhase, if_neg h]

/-- Witness for C9: a detector step while already stuck raises nothing, and
a concrete paddle contact clears the stuck flag. -/
theorem loop_detector_discipline_witness :
    (loopDetect 200 0 (100, 100) [] true 5).isStuck = true ∧
    (loopDetect 200 0 (100, 100) [] true 5).raised = false ∧
    (paddlePhase { baseState with
      ballX := 157, ballY := 274, dy := 6, paddleX := 100, isStuck := true }).isStuck = false := by
  have h1 := loop_detector_discipline.1 200 0 (100, 100) [] true 5 (Or.inl rfl)
  have h2 := loop_detector_discipline.2.1
    { baseState with ballX := 157, ballY := 274, dy := 6, paddleX := 100, isStuck := true }
    (by
      unfold paddleHitCond paddleTopY
      norm_num [baseState, CANVAS_HEIGHT, PADDLE_Y_OFFSET, PADDLE_HEIGHT, BALL_RADIUS,
        PADDLE_WIDTH])
  exact ⟨h1.1, h1.2.2, h2⟩

/-- Claim C10: the confidence scalar starts at `1.0` and, for a non-negative
skill level, every frame's `collisionDetection` (the only code that changes
it: productive-hit increases capped at 1.5, wall-hit decreases floored at
0.5) keeps it inside `[0.5, 1.5]`. -/
theorem confidence_bounded :
    (initialAggression = 1 ∧ 0.5 ≤ initialAggression ∧ initialAggression ≤ 1.5) ∧
    (∀ (skill rand : ℝ) (sign : Bool) (s : GameState), 0 ≤ skill →
      0.5 ≤ s.dynamicAggressionFactor → s.dynamicAggressionFactor ≤ 1.5 →
      0.5 ≤ (collisionDetection skill rand sign s).dynamicAggressionFactor ∧
      (collisionDetection skill rand sign s).dynamicAggressionFactor ≤ 1.5) := by
  constructor
  · exact ⟨by norm_num [initialAggression], by norm_num [initialAggression],
      by norm_num [initialAggression]⟩
  · intro skill rand sign s hs ha hb
    have hscan : 0.5 ≤ (brickScan skill rand s).s.dynamicAggressionFactor ∧
        (brickScan skill rand s).s.dynamicAggressionFactor ≤ 1.5 := by
      unfold brickScan
      exact scan_aggr_bounds rand hs scanOrder ⟨s, 0, 0, false, []⟩ ha hb
    simp only [collisionDetection]
    split_ifs with hwin
    · simpa using hscan
    · have hwall : 0.5 ≤ (wallPhase skill (brickScan skill rand s).s).dynamicAggressionFactor ∧
          (wallPhase skill (brickScan skill rand s).s).dynamicAggressionFactor ≤ 1.5 := by
        rcases wallPhase_aggr_cases skill (brickScan skill rand s).s with h | h | h <;> rw [h]
        · exact hscan
        · exact aggr_dec_bounds hs hscan.1 hscan.2
        · have h2 := aggr_dec_bounds hs hscan.1 hscan.2
          exact aggr_dec_bounds hs h2.1 h2.2
      rw [(floorPhase_preserved sign _).2.2.2.2.1, (paddlePhase_preserved _).2.2.2.2.2.2.2.2.1]
      exact hwall

/-- Witness for C10: one `collisionDetection` call from the generic state at
skill 1 keeps the confidence in range. -/
theorem confidence_bounded_witness :
    0.5 ≤ (collisionDetection 1 1 true baseState).dynamicAggressionFactor ∧
    (collisionDetection 1 1 true baseState).dynamicAggressionFactor ≤ 1.5 :=
  confidence_bounded.2 1 1 true baseState (by norm_num)
    (by norm_num [baseState]) (by norm_num [baseState])

/-- Claim C5: a JACKPOT resolution breaks every alive brick in the
triggering golden brick's row (and only bricks of that row), awarding
`POINTS_PER_BRICK` and one productive-hit credit per such brick and bumping
the jackpot counter once. -/
theorem jackpot_clears_row (s : GameState) (r0 : Fin 5) (rand : ℝ)
    (h : rand < GOLDEN_JACKPOT_CHANCE) :
    (∀ c : Fin 9, ((handleGoldenBrick (brickYpos r0) rand s).bricks c r0).status = false) ∧
    (∀ (c : Fin 9) (r : Fin 5), r ≠ r0 →
      (handleGoldenBrick (brickYpos r0) rand s).bricks c r = s.bricks c r) ∧
    (handleGoldenBrick (brickYpos r0) rand s).score =
      s.score + POINTS_PER_BRICK * aliveInRow s r0 ∧
    (handleGoldenBrick (brickYpos r0) rand s).productiveHits =
      s.productiveHits + aliveInRow s r0 ∧
    (handleGoldenBrick (brickYpos r0) rand s).jackpotsThisGame = s.jackpotsThisGame + 1 := by
  have hout : rouletteOutcome rand = GoldenOutcome.JACKPOT := by
    simp [rouletteOutcome, h]
  have hcond : (0 : ℤ) ≤ (r0 : ℤ) ∧ ((r0 : Fin 5) : ℤ) < 5 :=
    ⟨Int.ofNat_nonneg _, by exact_mod_cast r0.isLt⟩
  have hrow : ∀ pf, (⟨((r0 : ℤ)).toNat, pf⟩ : Fin 5) = r0 := fun pf => Fin.ext (by simp)
  simp only [handleGoldenBrick, hout, round_rowIdx]
  rw [dif_pos hcond, hrow]
  obtain ⟨hb, hs, hp, hj⟩ := foldl_clearRow_spec r0 (List.finRange 9)
    (List.nodup_finRange 9) { s with jackpotsThisGame := s.jackpotsThisGame + 1 }
  refine ⟨?_, ?_, ?_, ?_, ?_⟩
  · intro c
    rw [hb c r0, if_pos ⟨rfl, List.mem_finRange c⟩]
  · intro c r hr
    rw [hb c r, if_neg (fun hAnd => hr hAnd.1)]
  · rw [hs]
    rfl
  · rw [hp]
    rfl
  · rw [hj]

/-- Witness for C5: a jackpot draw (`rand = 0.1`) from the generic state
clears cell `(2, 0)` of row 0 and bumps the jackpot counter. -/
theorem jackpot_clears_row_witness :
    ((handleGoldenBrick (brickYpos 0) 0.1 baseState).bricks 2 0).status = false ∧
    (handleGoldenBrick (brickYpos 0) 0.1 baseState).jackpotsThisGame =
      baseState.jackpotsThisGame + 1 := by
  have h := jackpot_clears_row baseState 0 0.1 (by norm_num [GOLDEN_JACKPOT_CHANCE])
  exact ⟨h.1 2, h.2.2.2.2⟩

/-- Claim C8 helper: the `forEach` max-tracking fold of `runShotSimulations`
computes exactly the running maximum of the scores. -/
lemma sel_fold_max (L : List SimulatedPath) :
    ∀ (i m : ℕ) (b : ℤ),
      (L.foldl
        (fun (acc : ℕ × ℕ × ℤ) p =>
          if acc.2.1 < p.score then (acc.1 + 1, p.score, (acc.1 : ℤ))
          else (acc.1 + 1, acc.2.1, acc.2.2)) (i, m, b)).2.1 =
      L.foldl (fun m p => max m p.score) m := by
  induction L with
  | nil => intro i m b; rfl
  | cons p L ih =>
    intro i m b
    simp only [List.foldl_cons]
    by_cases h : m < p.score
    · rw [if_pos h, ih, max_eq_right (le_of_lt h)]
    · rw [if_neg h, ih, max_eq_left (le_of_not_lt h)]

/-- Claim C8 helper: a fold of `max` over scores exceeds `k` iff the seed
does or some listed path's score does. -/
lemma foldl_max_lt_iff (k : ℕ) (L : List SimulatedPath) :
    ∀ m : ℕ, k < L.foldl (fun m p => max m p.score) m ↔
      k < m ∨ ∃ p ∈ L, k < p.score := by
  induction L with
  | nil => intro m; simp
  | cons p L ih =>
    intro m
    simp only [List.foldl_cons, ih, lt_max_iff, List.mem_cons]
    constructor
    · rintro (⟨h | h⟩ | ⟨q, hq, hs⟩)
      · exact Or.inl h
      · exact Or.inr ⟨p, Or.inl rfl, h⟩
      · exact Or.inr ⟨q, Or.inr hq, hs⟩
    · rintro (h | ⟨q, hq | hq, hs⟩)
      · exact Or.inl (Or.inl h)
      · subst hq; exact Or.inl (Or.inr hs)
      · exact Or.inr ⟨q, hq, hs⟩

/-- Claim C8: `runShotSimulations` retains a strategic plan exactly when the
highest candidate path score is strictly greater than 1; in particular a
brick field whose best candidate hits exactly one brick yields no plan. -/
theorem plan_retained_iff (s : GameState) :
    (runShotSimulations s).isSome = true ↔ ∃ p ∈ simulatedPaths s, 1 < p.score := by
  simp only [runShotSimulations]
  rw [sel_fold_max (simulatedPaths s) 0 0 (-1)]
  by_cases h : 1 < (simulatedPaths s).foldl (fun m p => max m p.score) 0
  · rw [if_pos h]
    simp only [Option.isSome_some, true_iff]
    rcases (foldl_max_lt_iff 1 (simulatedPaths s) 0).mp h with h1 | h1
    · omega
    · exact h1
  · rw [if_neg h]
    simp only [Option.isSome_none, Bool.false_eq_true, false_iff]
    intro ⟨p, hp, hs⟩
    exact h ((foldl_max_lt_iff 1 (simulatedPaths s) 0).mpr (Or.inr ⟨p, hp, hs⟩))

/-- Claim C1 (amended): after the frame's friction-and-clamp step a ball
with nonzero velocity always has speed at least `MIN_BALL_SPEED`; the step
imposes no upper clamp (see `speed_clamp_counterexample`). -/
theorem speed_min_after_clamp (s : GameState) (h : ¬(s.dx = 0 ∧ s.dy = 0)) :
    MIN_BALL_SPEED ≤ ballSpeed (ballUpdate s) := by
  have key : ∀ x y : ℝ, x ≠ 0 → 0 < x ^ 2 + y ^ 2 := fun x y hx => by
    nlinarith [sq_nonneg y, (sq_nonneg x).lt_of_ne fun e => hx (sq_eq_zero_iff.mp e.symm)]
  have hq : 0 < (s.dx * BALL_FRICTION) ^ 2 + (s.dy * BALL_FRICTION) ^ 2 := by
    rcases not_and_or.mp h with hx | hy
    · exact key _ _ (mul_ne_zero hx (by norm_num [BALL_FRICTION]))
    · have := key (s.dy * BALL_FRICTION) (s.dx * BALL_FRICTION)
        (mul_ne_zero hy (by norm_num [BALL_FRICTION]))
      linarith [this]
  have hsq : 0 < Real.sqrt ((s.dx * BALL_FRICTION) ^ 2 + (s.dy * BALL_FRICTION) ^ 2) :=
    Real.sqrt_pos.mpr hq
  simp only [ballUpdate, ballSpeed]
  split_ifs with hc
  · have h4 : (0:ℝ) ≤ MIN_BALL_SPEED /
        Real.sqrt ((s.dx * BALL_FRICTION) ^ 2 + (s.dy * BALL_FRICTION) ^ 2) := by
      have : (0:ℝ) ≤ MIN_BALL_SPEED := by norm_num [MIN_BALL_SPEED]
      positivity
    have hring : (s.dx * BALL_FRICTION *
          (MIN_BALL_SPEED / Real.sqrt ((s.dx * BALL_FRICTION) ^ 2 + (s.dy * BALL_FRICTION) ^ 2))) ^ 2 +
        (s.dy * BALL_FRICTION *
          (MIN_BALL_SPEED / Real.sqrt ((s.dx * BALL_FRICTION) ^ 2 + (s.dy * BALL_FRICTION) ^ 2))) ^ 2 =
        (MIN_BALL_SPEED / Real.sqrt ((s.dx * BALL_FRICTION) ^ 2 + (s.dy * BALL_FRICTION) ^ 2)) ^ 2 *
          ((s.dx * BALL_FRICTION) ^ 2 + (s.dy * BALL_FRICTION) ^ 2) := by ring
    rw [hring, Real.sqrt_mul (sq_nonneg _), Real.sqrt_sq h4, div_mul_cancel₀ _ (ne_of_gt hsq)]
  · rcases not_and_or.mp hc with h1 | h1
    · exact le_of_not_lt h1
    · exact absurd hsq h1

/-- Witness for C1's amended lower bound at the generic state. -/
theorem speed_min_after_clamp_witness :
    MIN_BALL_SPEED ≤ ballSpeed (ballUpdate baseState) :=
  speed_min_after_clamp baseState (by norm_num [baseState])

set_option maxRecDepth 4000 in
lemma flick_scan : brickScan 1 1 flickState = ⟨flickState, 0, 0, false, []⟩ := rfl

lemma flick_wall : wallPhase 1 flickState = flickState := by
  norm_num [wallPhase, flickState, baseState, CANVAS_WIDTH, BALL_RADIUS]

lemma flick_paddle : paddlePhase flickState =
    { flickState with
      ballY := paddleTopY - BALL_RADIUS
      dy := -6.6
      dx := 9
      isStuck := false
      isPowerShotMode := false } := by
  have hcond : paddleHitCond flickState := by
    norm_num [paddleHitCond, flickState, baseState, paddleTopY, CANVAS_HEIGHT,
      PADDLE_Y_OFFSET, PADDLE_HEIGHT, BALL_RADIUS, PADDLE_WIDTH]
  simp only [paddlePhase, if_pos hcond]
  norm_num [flickState, baseState, PADDLE_WIDTH, PADDLE_SPIN_FACTOR,
    AI_POWER_SHOT_MULTIPLIER, PADDLE_VELOCITY_SPIN_FACTOR, PADDLE_EDGE_BOOST,
    PADDLE_FLICK_SPEED_BONUS, paddleTopY, CANVAS_HEIGHT, PADDLE_Y_OFFSET, PADDLE_HEIGHT,
    BALL_RADIUS, abs_of_pos, abs_of_nonneg]

set_option maxRecDepth 4000 in
lemma flick_cd : collisionDetection 1 1 true flickState =
    { flickState with
      ballY := paddleTopY - BALL_RADIUS
      dy := -6.6
      dx := 9
      isStuck := false
      isPowerShotMode := false } := by
  simp only [collisionDetection, flick_scan]
  rw [if_neg (by norm_num)]
  rw [flick_wall, flick_paddle]
  simp only [floorPhase]
  rw [if_neg]
  norm_num [flickState, baseState, paddleTopY, CANVAS_HEIGHT, PADDLE_Y_OFFSET,
    PADDLE_HEIGHT, BALL_RADIUS]

/-- Counterexample to claim C1 as stated: one frame after a plain edge flick
shot off the paddle (no golden-brick effect anywhere: the brick field is
empty), the friction-and-clamp step leaves the ball at speed above
`MAX_BALL_SPEED` — the step clamps only from below. -/
theorem speed_clamp_counterexample :
    flickState.bricks = emptyGrid ∧
    (collisionDetection 1 1 true flickState).dx = 9 ∧
    (collisionDetection 1 1 true flickState).dy = -6.6 ∧
    MAX_BALL_SPEED < ballSpeed (ballUpdate (collisionDetection 1 1 true flickState)) := by
  rw [flick_cd]
  refine ⟨rfl, rfl, rfl, ?_⟩
  simp only [ballUpdate, ballSpeed]
  rw [if_neg]
  · rw [show MAX_BALL_SPEED = (10:ℝ) from rfl, Real.lt_sqrt (by norm_num)]
    norm_num [BALL_FRICTION]
  · rintro ⟨h1, -⟩
    rw [show MIN_BALL_SPEED = (4:ℝ) from rfl, Real.sqrt_lt' (by norm_num)] at h1
    norm_num [BALL_FRICTION] at h1

/-- Claim C2: a non-power ball registers at most one brick hit per frame,
and that hit is the first overlapped alive brick in scan order; a power ball
has its velocity untouched by the brick scan (no bounce off bricks, given no
golden brick is alive — true of every reachable power-ball state) and can
break more than one brick in a single frame, as the concrete state
`powerBallState` shows. -/
theorem one_hit_per_frame_rule :
    (∀ (skill rand : ℝ) (s : GameState), s.isPowerBall = false →
      (brickScan skill rand s).hits.length ≤ 1 ∧
      ∀ cr ∈ (brickScan skill rand s).hits, firstOverlap s = some cr) ∧
    (∀ (skill rand : ℝ) (s : GameState), s.isPowerBall = true → noAliveGolden s →
      (brickScan skill rand s).s.dx = s.dx ∧ (brickScan skill rand s).s.dy = s.dy) ∧
    powerBallState.isPowerBall = true ∧
    2 ≤ (brickScan 1 1 powerBallState).hits.length := by
  refine ⟨?_, ?_, rfl, ?_⟩
  · intro skill rand s hp
    have h := scan_nonpower_hits skill rand scanOrder ⟨s, 0, 0, false, []⟩ rfl hp rfl
    simp only [brickScan]
    rcases h with ⟨h1, -, -⟩ | ⟨cr0, h1, h2⟩
    · rw [h1]
      exact ⟨by simp, by simp⟩
    · rw [h1]
      refine ⟨by simp, ?_⟩
      intro cr hcr
      simp only [List.mem_singleton] at hcr
      subst hcr
      exact h2
  · intro skill rand s hp hg
    have h := scan_power_velocity skill rand scanOrder ⟨s, 0, 0, false, []⟩ hp hg
    simpa [brickScan] using h
  · have hov1 : aliveOverlap powerBallState ((0 : Fin 9), (0 : Fin 5)) := by
      refine ⟨rfl, ?_⟩
      norm_num [powerBallState, baseState, brickXpos, brickYpos, BRICK_WIDTH, BRICK_HEIGHT,
        BRICK_PADDING, BRICK_OFFSET_LEFT, BRICK_OFFSET_TOP, BALL_RADIUS, min_def, max_def]
    have step1 := cellStep_fire 1 1 ⟨powerBallState, 0, 0, false, []⟩
      ((0 : Fin 9), (0 : Fin 5)) hov1 rfl
    have extras1 := cellStep_fire_nogolden 1 1 ⟨powerBallState, 0, 0, false, []⟩
      ((0 : Fin 9), (0 : Fin 5)) hov1 rfl rfl
    have h1hits : (cellStep 1 1 ⟨powerBallState, 0, 0, false, []⟩
        ((0 : Fin 9), (0 : Fin 5))).hits = [((0 : Fin 9), (0 : Fin 5))] := by
      rw [step1.1]
      rfl
    have h1flag : (cellStep 1 1 ⟨powerBallState, 0, 0, false, []⟩
        ((0 : Fin 9), (0 : Fin 5))).flag = false := by
      rw [step1.2]
      rfl
    have hov2 : aliveOverlap (cellStep 1 1 ⟨powerBallState, 0, 0, false, []⟩
        ((0 : Fin 9), (0 : Fin 5))).s ((0 : Fin 9), (1 : Fin 5)) := by
      constructor
      · rw [extras1.2.2.1 0 1 (by decide)]
        rfl
      · have hx := (cellStep_preserved 1 1 ⟨powerBallState, 0, 0, false, []⟩
          ((0 : Fin 9), (0 : Fin 5))).1
        have hy := (cellStep_preserved 1 1 ⟨powerBallState, 0, 0, false, []⟩
          ((0 : Fin 9), (0 : Fin 5))).2.1
        rw [hx, hy]
        norm_num [powerBallState, baseState, brickXpos, brickYpos, BRICK_WIDTH, BRICK_HEIGHT,
          BRICK_PADDING, BRICK_OFFSET_LEFT, BRICK_OFFSET_TOP, BALL_RADIUS, min_def, max_def]
    have step2 := cellStep_fire 1 1 (cellStep 1 1 ⟨powerBallState, 0, 0, false, []⟩
      ((0 : Fin 9), (0 : Fin 5))) ((0 : Fin 9), (1 : Fin 5)) hov2 h1flag
    have hsplit : scanOrder =
        ((0 : Fin 9), (0 : Fin 5)) :: ((0 : Fin 9), (1 : Fin 5)) :: scanOrder.drop 2 := by
      decide
    simp only [brickScan]
    rw [hsplit, List.foldl_cons, List.foldl_cons]
    obtain ⟨t, ht⟩ := foldl_hits_append 1 1 (scanOrder.drop 2)
      (cellStep 1 1 (cellStep 1 1 ⟨powerBallState, 0, 0, false, []⟩
        ((0 : Fin 9), (0 : Fin 5))) ((0 : Fin 9), (1 : Fin 5)))
    rw [ht, step2.1, h1hits]
    simp

/-- Witness for C2: one non-power scan from the generic state registers at
most one hit, and one power scan keeps the velocity. -/
theorem one_hit_per_frame_rule_witness :
    (brickScan 1 1 baseState).hits.length ≤ 1 ∧
    (brickScan 1 1 { baseState with isPowerBall := true }).s.dx =
      ({ baseState with isPowerBall := true } : GameState).dx := by
  constructor
  · exact (one_hit_per_frame_rule.1 1 1 baseState (by norm_num [baseState])).1
  · exact (one_hit_per_frame_rule.2.1 1 1 { baseState with isPowerBall := true }
      (by norm_num [baseState]) (fun c r => by simp [baseState, emptyGrid])).1

/-- Claim C3 (amended): `collisionDetection` sets the winning flag exactly
when every brick was already broken when the call began (and the layout is
nonempty) — one frame after the frame that breaks the last brick, because
the loop counts a brick as broken only when it was broken before its own
visit; the losing flag is set on the exact call in which the ball is fully
past the bottom edge with the last life, otherwise a bottom exit decrements
lives and resets ball and paddle; and both terminal flags are never
unset. -/
theorem win_loss_detection :
    (∀ (skill rand : ℝ) (sign : Bool) (s : GameState),
      (collisionDetection skill rand sign s).isWinning = true ↔
        (s.isWinning = true ∨ (allBroken s ∧ someLayout s))) ∧
    (∀ (sign : Bool) (s : GameState), s.ballY - BALL_RADIUS > CANVAS_HEIGHT →
      s.lives = 1 →
      (floorPhase sign s).isLosing = true ∧ (floorPhase sign s).lives = 0) ∧
    (∀ (sign : Bool) (s : GameState), s.ballY - BALL_RADIUS > CANVAS_HEIGHT →
      s.lives ≠ 1 →
      (floorPhase sign s).isLosing = s.isLosing ∧
      (floorPhase sign s).lives = s.lives - 1 ∧
      (floorPhase sign s).ballX = CANVAS_WIDTH / 2) ∧
    (∀ (sign : Bool) (s : GameState), ¬(s.ballY - BALL_RADIUS > CANVAS_HEIGHT) →
      floorPhase sign s = s) ∧
    (∀ (skill rand : ℝ) (sign : Bool) (s : GameState),
      (s.isWinning = true → (collisionDetection skill rand sign s).isWinning = true) ∧
      (s.isLosing = true → (collisionDetection skill rand sign s).isLosing = true)) := by
  have hscanW : ∀ (skill rand : ℝ) (s : GameState),
      (brickScan skill rand s).s.isWinning = s.isWinning := by
    intro skill rand s
    simp [brickScan]
  have hlink : ∀ (skill rand : ℝ) (s : GameState),
      scanOrder.foldl (cellStep skill rand) ⟨s, 0, 0, false, []⟩ = brickScan skill rand s :=
    fun _ _ _ => rfl
  refine ⟨?_, ?_, ?_, ?_, ?_⟩
  · intro skill rand sign s
    simp only [collisionDetection]
    split_ifs with hwin
    · simp only [GameState.isWinning]
      constructor
      · intro _
        obtain ⟨ht, hbt, hW⟩ := hwin
        have hab : allBroken s := by
          by_contra hnab
          have halive : ∃ (c : Fin 9) (r : Fin 5), (s.bricks c r).status = true := by
            unfold allBroken at hnab
            push_neg at hnab
            obtain ⟨c, r, hcr⟩ := hnab
            exact ⟨c, r, by simpa using hcr⟩
          obtain ⟨c, r, hcr⟩ := halive
          have hlt := scan_exists_alive_lt skill rand scanOrder ⟨s, 0, 0, false, []⟩
            (le_refl 0) ⟨(c, r), mem_scanOrder _, hcr⟩
          rw [hlink] at hlt
          omega
        refine Or.inr ⟨hab, ?_⟩
        obtain ⟨-, htot, -⟩ := scan_allBroken skill rand scanOrder ⟨s, 0, 0, false, []⟩ hab
        rw [hlink] at htot
        have htot' : (brickScan skill rand s).total =
            (scanOrder.filter fun cr => (s.bricks cr.1 cr.2).inLayout).length := by
          simpa using htot
        have hpos : 0 < (scanOrder.filter fun cr => (s.bricks cr.1 cr.2).inLayout).length := by
          omega
        obtain ⟨cr, hmem⟩ := List.exists_mem_of_length_pos hpos
        obtain ⟨-, hil⟩ := List.mem_filter.mp hmem
        exact ⟨cr.1, cr.2, by simpa using hil⟩
      · exact fun _ => trivial
    · have hpres : (floorPhase sign (paddlePhase
          (wallPhase skill (brickScan skill rand s).s))).isWinning =
          (brickScan skill rand s).s.isWinning := by
        simp
      rw [hpres, hscanW]
      constructor
      · exact Or.inl
      · rintro (h | ⟨hab, hsl⟩)
        · exact h
        · obtain ⟨hs_eq, htot, hbr⟩ := scan_allBroken skill rand scanOrder
            ⟨s, 0, 0, false, []⟩ hab
          rw [hlink] at hs_eq htot hbr
          have htot' : (brickScan skill rand s).total =
              (scanOrder.filter fun cr => (s.bricks cr.1 cr.2).inLayout).length := by
            simpa using htot
          have hbr' : (brickScan skill rand s).broken =
              (scanOrder.filter fun cr => (s.bricks cr.1 cr.2).inLayout).length := by
            simpa using hbr
          obtain ⟨c, r, hil⟩ := hsl
          have hmem : (c, r) ∈ scanOrder.filter fun cr => (s.bricks cr.1 cr.2).inLayout :=
            List.mem_filter.mpr ⟨mem_scanOrder _, by simpa using hil⟩
          have hpos : 0 < (scanOrder.filter fun cr => (s.bricks cr.1 cr.2).inLayout).length :=
            List.length_pos.mpr (List.ne_nil_of_mem hmem)
          by_contra hW
          refine hwin ⟨by omega, by omega, ?_⟩
          rw [hscanW]
          simpa using hW
  · intro sign s hf hl
    simp only [floorPhase]
    rw [if_pos hf, if_pos (by simp [hl])]
    exact ⟨rfl, by simp [hl]⟩
  · intro sign s hf hl
    simp only [floorPhase]
    rw [if_pos hf, if_neg (by simp [sub_eq_zero]; omega)]
    simp [resetBallAndPaddle]
  · intro sign s hf
    simp only [floorPhase]
    rw [if_neg hf]
  · intro skill rand sign s
    constructor
    · intro h
      simp only [collisionDetection]
      split_ifs with hwin
      · rfl
      · have hpres : (floorPhase sign (paddlePhase
            (wallPhase skill (brickScan skill rand s).s))).isWinning =
            (brickScan skill rand s).s.isWinning := by
          simp
        rw [hpres, hscanW]
        exact h
    · intro h
      have hscanL : (brickScan skill rand s).s.isLosing = true := by
        simp [brickScan, h]
      simp only [collisionDetection]
      split_ifs with hwin
      · simpa using hscanL
      · apply floorPhase_isLosing_mono
        simp [hscanL]

/-- Witness for C3's amended floor and irreversibility conjuncts at concrete
states: a bottom exit with the last life sets the losing flag, and a won
state stays won through another frame's collision pass. -/
theorem win_loss_detection_witness :
    (floorPhase true { baseState with ballY := 320, lives := 1 }).isLosing = true ∧
    (collisionDetection 1 1 true { baseState with isWinning := true }).isWinning = true := by
  constructor
  · exact (win_loss_detection.2.1 true { baseState with ballY := 320, lives := 1 }
      (by norm_num [baseState, BALL_RADIUS, CANVAS_HEIGHT]) (by norm_num [baseState])).1
  · exact ((win_loss_detection.2.2.2.2 1 1 true
      { baseState with isWinning := true }).1) rfl

set_option maxRecDepth 4000 in
/-- C3 counterexample to the claimed exact-frame win detection: at
`lastBrickState` the scan of this very call breaks the one remaining brick,
so afterwards every brick is broken, yet the winning flag is still unset,
because the loop counted the brick as alive at its visit. -/
theorem win_detection_counterexample :
    (lastBrickState.bricks 0 0).status = true ∧
    lastBrickState.isWinning = false ∧
    allBroken (collisionDetection 1 1 true lastBrickState) ∧
    (collisionDetection 1 1 true lastBrickState).isWinning = false := by
  have hov : aliveOverlap lastBrickState ((0 : Fin 9), (0 : Fin 5)) := by
    refine ⟨rfl, ?_⟩
    norm_num [lastBrickState, baseState, brickXpos, brickYpos, BRICK_WIDTH, BRICK_HEIGHT,
      BRICK_PADDING, BRICK_OFFSET_LEFT, BRICK_OFFSET_TOP, BALL_RADIUS, min_def, max_def]
  have hfireN := cellStep_fire_nogolden 1 1 ⟨lastBrickState, 0, 0, false, []⟩
    ((0 : Fin 9), (0 : Fin 5)) hov rfl rfl
  have hcnt := cellStep_fire_counters 1 1 ⟨lastBrickState, 0, 0, false, []⟩
    ((0 : Fin 9), (0 : Fin 5)) hov
  have hgrid : ∀ cr ∈ scanOrder.drop 1, ¬(cr.1 = (0 : Fin 9) ∧ cr.2 = (0 : Fin 5)) ∧
      (oneBrickGrid cr.1 cr.2).status = false ∧
      (oneBrickGrid cr.1 cr.2).inLayout = false := by decide
  have hskip : (scanOrder.drop 1).foldl (cellStep 1 1)
      (cellStep 1 1 ⟨lastBrickState, 0, 0, false, []⟩ ((0 : Fin 9), (0 : Fin 5))) =
      cellStep 1 1 ⟨lastBrickState, 0, 0, false, []⟩ ((0 : Fin 9), (0 : Fin 5)) := by
    apply foldl_skip_all
    intro cr hm
    obtain ⟨hne, h1, h2⟩ := hgrid cr hm
    rw [hfireN.2.2.1 cr.1 cr.2 hne]
    exact ⟨h1, h2⟩
  have hsplit : scanOrder = ((0 : Fin 9), (0 : Fin 5)) :: scanOrder.drop 1 := by decide
  have hscan : brickScan 1 1 lastBrickState =
      cellStep 1 1 ⟨lastBrickState, 0, 0, false, []⟩ ((0 : Fin 9), (0 : Fin 5)) := by
    show scanOrder.foldl (cellStep 1 1) ⟨lastBrickState, 0, 0, false, []⟩ = _
    rw [hsplit, List.foldl_cons]
    exact hskip
  have hnot : ¬(0 < (brickScan 1 1 lastBrickState).total ∧
      (brickScan 1 1 lastBrickState).broken = (brickScan 1 1 lastBrickState).total ∧
      (brickScan 1 1 lastBrickState).s.isWinning = false) := by
    rintro ⟨-, habs, -⟩
    rw [hscan, hcnt.1, hcnt.2] at habs
    simp at habs
  have hcd : collisionDetection 1 1 true lastBrickState =
      floorPhase true (paddlePhase (wallPhase 1 (brickScan 1 1 lastBrickState).s)) := by
    simp only [collisionDetection]
    rw [if_neg hnot]
  have hab : allBroken (collisionDetection 1 1 true lastBrickState) := by
    intro c r
    have hb : (collisionDetection 1 1 true lastBrickState).bricks c r =
        (cellStep 1 1 ⟨lastBrickState, 0, 0, false, []⟩
          ((0 : Fin 9), (0 : Fin 5))).s.bricks c r := by
      rw [hcd, hscan]
      simp
    rw [hb]
    by_cases h : c = (0 : Fin 9) ∧ r = (0 : Fin 5)
    · obtain ⟨hc, hr⟩ := h
      subst hc; subst hr
      rw [show (cellStep 1 1 ⟨lastBrickState, 0, 0, false, []⟩
            ((0 : Fin 9), (0 : Fin 5))).s.bricks 0 0 =
          { lastBrickState.bricks 0 0 with status := false } from hfireN.2.1]
    · rw [hfireN.2.2.1 c r h]
      show (oneBrickGrid c r).status = false
      simp [oneBrickGrid, h]
  have hW : (collisionDetection 1 1 true lastBrickState).isWinning = false := by
    rw [hcd, hscan]
    simp [lastBrickState, baseState]
  exact ⟨rfl, rfl, hab, hW⟩

/-- Witness for C4 at a concrete motionless-vertical ball state. -/
theorem ai_division_guards_witness :
    getDefensiveTargetX { baseState with dy := 0 } = 200 ∧
    goldenGambleTarget { baseState with dy := 0 } 100 = none ∧
    (finisherTarget { baseState with dy := 0 } 100 = none ∨
      finisherTarget { baseState with dy := 0 } 100 = some 200) := by
  refine ⟨?_, ?_, ?_⟩
  · have := ai_division_guards.1 { baseState with dy := 0 } (by norm_num [baseState])
    simpa [baseState] using this
  · exact ai_division_guards.2.1 { baseState with dy := 0 } 100 (by norm_num [baseState])
  · have := ai_division_guards.2.2 { baseState with dy := 0 } 100 (by norm_num [baseState])
    simpa [baseState] using this

end Arkonoid
